import Mathlib

/-!
Verification of the `linux_monitor` differential metrics samplers.

This file gives a shallow embedding of the sampling subsystem of the
repository: the per-domain samplers (`CpuStatMonitor`, `CpuSoftIrqMonitor`,
`CpuLoadMonitor`, `MemMonitor`, `NetMonitor`, each a `UpdateOnce` member
function in `src/linux_monitor/src/monitor/`), the shared reading/parsing
helpers (`ReadFile::ReadLine`, `std::stoll`, `std::stof`), the aggregation
loop in `src/linux_monitor/src/main.cpp`, and the snapshot distribution
cache (`GrpcManagerImpl` in `src/rpc_manager/server/rpc_manager.h`).

Modelling conventions:
* A line produced by `ReadFile::ReadLine` is a `List String` of
  whitespace-delimited tokens; a file is a `List (List String)`.
* C++ `double`/`float` arithmetic is idealised as exact rational
  arithmetic (`Rat`); `int64_t` is `Int` with the `std::stoll` range check
  made explicit.
* `std::vector`/`std::string` indexing out of bounds, and
  `std::string::pop_back` on an empty string, are undefined behaviour in
  the source; the embedding surfaces them as the error `CxxErr.oob`.
* Exceptions thrown by `std::stoll` / `std::stof` are the errors
  `CxxErr.badNum` / `CxxErr.range`; an `UpdateOnce` call is a function
  into `Except CxxErr _`, and the aggregation loop propagates the first
  error (the C++ code installs no handler, so a thrown exception aborts
  the tick and the process).
* `std::unordered_map` history members are association lists with
  last-key-wins upsert (`histInsert`); the spec states insertion order is
  irrelevant, and only `find`/`operator[]` are used by the code.
* The per-line `std::chrono::steady_clock::now()` capture inside one
  `UpdateOnce` call is modelled as a single capture instant `now : Rat`
  for that call.
-/

/- Rational arithmetic in Batteries is sealed against unfolding; the
concrete evaluations of the samplers below are checked by `decide`, which
needs these operations to reduce. -/
set_option allowUnsafeReducibility true

attribute [semireducible] Rat.add Rat.mul Rat.sub Rat.inv Rat.div Rat.neg Rat.ofScientific

deriving instance DecidableEq for Except

/-- Outcome of an operation of the C++ source that can fail: `oob` stands for
an out-of-bounds container access or `pop_back` on an empty string (undefined
behaviour in the source), `badNum` for `std::invalid_argument` thrown by
`std::stoll`/`std::stof`, and `range` for `std::out_of_range`. -/
inductive CxxErr where
  | oob
  | badNum
  | range
deriving Repr, DecidableEq

/-- Value of `std::numeric_limits<size_t>::max()`, which is also
`std::string::npos`, on the 64-bit platform the monitor targets. -/
def sizetMax : Nat := 2 ^ 64 - 1

/-- Result of `n - 1` computed in `size_t` arithmetic: it wraps around to
`sizetMax` when `n = 0`. -/
def sizetDec (n : Nat) : Nat := (n + sizetMax) % 2 ^ 64

/-- Position of the first occurrence of a character in a character list. -/
def charFindPos (c : Char) : List Char → Option Nat
  | [] => none
  | x :: xs => if x = c then some 0 else (charFindPos c xs).map (· + 1)

/-- Embedding of `std::string::find(char)`: index of the first occurrence,
or `npos` (= `sizetMax`) when the character does not occur.  Strings are
modelled as their character lists; the tokens the monitor reads are ASCII,
where byte positions and character positions agree. -/
def cxxFindChar (s : String) (c : Char) : Nat :=
  match charFindPos c s.data with
  | some i => i
  | none => sizetMax

/-- Embedding of `std::string::pop_back()`: removes the last character;
calling it on an empty string is undefined behaviour, surfaced as `oob`. -/
def strPopBack (s : String) : Except CxxErr String :=
  if s.data.isEmpty then .error .oob else .ok ⟨s.data.dropLast⟩

/-- Decides whether `pat` occurs as a contiguous prefix of `s`. -/
def charsHavePre (pat s : List Char) : Bool :=
  match pat, s with
  | [], _ => true
  | _ :: _, [] => false
  | p :: ps, c :: cs => p == c && charsHavePre ps cs

/-- Decides whether `pat` occurs contiguously anywhere inside `s`. -/
def charsHaveSub (pat : List Char) : List Char → Bool
  | [] => charsHavePre pat []
  | c :: cs => charsHavePre pat (c :: cs) || charsHaveSub pat cs

/-- Embedding of `s.find(pat) != std::string::npos`: substring containment. -/
def strContainsSub (s pat : String) : Bool := charsHaveSub pat.data s.data

/-- Characters the C locale `isspace` accepts, which is what `std::stoll`
and `std::stof` skip before the number. -/
def isSpaceChar (c : Char) : Bool :=
  c == ' ' || c == '\t' || c == '\n' || c == '\r' || c == Char.ofNat 11 || c == Char.ofNat 12

/-- Decides whether a character is a decimal digit. -/
def isDigitChar (c : Char) : Bool := '0' ≤ c && c ≤ '9'

/-- Numeric value of a decimal digit character. -/
def digitVal (c : Char) : Nat := c.toNat - '0'.toNat

/-- Value of a list of decimal digit characters, most significant first. -/
def digitsToNat : List Char → Nat := List.foldl (fun n c => 10 * n + digitVal c) 0

/-- Splits an optional leading sign off a character list; the boolean is
true when the sign was `-`. -/
def splitSign : List Char → Bool × List Char
  | '-' :: cs => (true, cs)
  | '+' :: cs => (false, cs)
  | cs => (false, cs)

/-- Embedding of `std::stoll` (base 10): skip C-locale whitespace, read an
optional sign and a non-empty run of decimal digits, ignore any trailing
characters; `std::invalid_argument` when no digits are found and
`std::out_of_range` when the value does not fit in `long long`. -/
def stoll (s : String) : Except CxxErr Int :=
  let cs := s.data.dropWhile isSpaceChar
  let (neg, cs1) := splitSign cs
  let ds := cs1.takeWhile isDigitChar
  if ds.isEmpty then .error .badNum
  else
    let v : Int := if neg then -(digitsToNat ds : Int) else (digitsToNat ds : Int)
    if v < -(2 ^ 63) ∨ (2 ^ 63 - 1 : Int) < v then .error .range else .ok v

/-- Embedding of `std::stof`: skip C-locale whitespace, read an optional
sign, an optional integer digit run, an optional `.` followed by an
optional fraction digit run; at least one digit overall is required, any
trailing characters are ignored.  Binary floating-point rounding is
idealised away (the value is exact), and exponent notation is not
modelled: the `/proc` counter tokens the monitor feeds to `std::stof` are
plain digit runs. -/
def stof (s : String) : Except CxxErr Rat :=
  let cs := s.data.dropWhile isSpaceChar
  let (neg, cs1) := splitSign cs
  let ip := cs1.takeWhile isDigitChar
  let rest := cs1.dropWhile isDigitChar
  let fp := match rest with
    | '.' :: cs2 => cs2.takeWhile isDigitChar
    | _ => []
  if ip.isEmpty && fp.isEmpty then .error .badNum
  else
    let v : Rat := (digitsToNat ip : Rat) + (digitsToNat fp : Rat) / (10 : Rat) ^ fp.length
    .ok (if neg then -v else v)

/-- Embedding of `std::vector::operator[]` (and `std::string` element access
through a vector of tokens): out-of-bounds access is undefined behaviour in
the source, surfaced as `oob`. -/
def vecGet {α : Type} (xs : List α) (i : Nat) : Except CxxErr α :=
  match xs[i]? with
  | some x => .ok x
  | none => .error .oob

/-- Reads token `i` of a line and converts it with `std::stoll`. -/
def stollTok (toks : List String) (i : Nat) : Except CxxErr Int := do
  let t ← vecGet toks i
  stoll t

/-- Reads token `i` of a line and converts it with `std::stof`. -/
def stofTok (toks : List String) (i : Nat) : Except CxxErr Rat := do
  let t ← vecGet toks i
  stof t

/-- Lookup in an entity-history association list, the embedding of
`std::unordered_map::find`. -/
def histFind {α : Type} : List (String × α) → String → Option α
  | [], _ => none
  | (k, v) :: rest, key => if k = key then some v else histFind rest key

/-- Upsert into an entity-history association list, the embedding of
`map[key] = value`: replaces the entry when the key is present, appends
otherwise. -/
def histInsert {α : Type} : List (String × α) → String → α → List (String × α)
  | [], key, v => [(key, v)]
  | (k, w) :: rest, key, v =>
    if k = key then (key, v) :: rest else (k, w) :: histInsert rest key v

/-- Prepends an optional element to a list; the embedding of the repeated
`add_*` proto calls that append one message when a metric is emitted. -/
def consOpt {α : Type} : Option α → List α → List α
  | none, xs => xs
  | some x, xs => x :: xs

/-- Raw per-interface sample of `NetMonitor` (`struct NetInfo` in
`net_monitor.h`): cumulative counters parsed from one `/proc/net/dev` line
plus the capture instant. -/
structure NetInfo where
  name : String
  rcv_bytes : Int
  rcv_packets : Int
  err_in : Int
  drop_in : Int
  snd_bytes : Int
  snd_packets : Int
  err_out : Int
  drop_out : Int
  timepoint : Rat
deriving Repr, DecidableEq

/-- Emitted per-interface message of `NetMonitor` (the fields set on
`monitor_info->add_net_info()`). -/
structure NetRateMsg where
  name : String
  send_rate : Rat
  rcv_rate : Rat
  send_packets_rate : Rat
  rcv_packets_rate : Rat
deriving Repr, DecidableEq

/-- Guard of `NetMonitor::UpdateOnce` on one line
(`name.find(':') == name.size() - 1 && net_datas.size() >= 10`):
the first occurrence of `':'` in the first token sits at position
`size() - 1` computed in `size_t`, and the line has at least 10 tokens. -/
def netLineIsInterface (toks : List String) : Bool :=
  let name := toks.headD ""
  (cxxFindChar name ':' == sizetDec name.data.length) && decide (10 ≤ toks.length)

/-- Predicate the specification states for the same guard: the first token
ends with `':'` and the line has at least 10 fields.  Kept separate from
`netLineIsInterface` (which embeds the code) so the two can be compared. -/
def specNetLineIsInterface (toks : List String) : Bool :=
  let name := toks.headD ""
  (match name.data.getLast? with
   | some c => c == ':'
   | none => false) && decide (10 ≤ toks.length)

/-- Parsing part of the per-line body of `NetMonitor::UpdateOnce`: applies
the guard and, for an accepted line, strips the trailing `':'` from the
name and reads the eight counters at token indices 1-4 and 9-12, stamping
the sample with the capture instant `now`. -/
def netParseLine (now : Rat) (toks : List String) : Except CxxErr (Option NetInfo) := do
  let name0 ← vecGet toks 0
  if netLineIsInterface toks then do
    let name ← strPopBack name0
    let rcvB ← stollTok toks 1
    let rcvP ← stollTok toks 2
    let errIn ← stollTok toks 3
    let dropIn ← stollTok toks 4
    let sndB ← stollTok toks 9
    let sndP ← stollTok toks 10
    let errOut ← stollTok toks 11
    let dropOut ← stollTok toks 12
    pure (some { name := name, rcv_bytes := rcvB, rcv_packets := rcvP,
                 err_in := errIn, drop_in := dropIn, snd_bytes := sndB,
                 snd_packets := sndP, err_out := errOut, drop_out := dropOut,
                 timepoint := now })
  else
    pure none

/-- Rate message `NetMonitor::UpdateOnce` fills in when a previous sample
exists and the elapsed time is positive: byte counters are divided by
`1024.0` and by the period, packet counters only by the period. -/
def netMkMsg (cur old : NetInfo) (period : Rat) : NetRateMsg :=
  { name := cur.name
    send_rate := ((cur.snd_bytes - old.snd_bytes : Int) : Rat) / 1024 / period
    rcv_rate := ((cur.rcv_bytes - old.rcv_bytes : Int) : Rat) / 1024 / period
    send_packets_rate := ((cur.snd_packets - old.snd_packets : Int) : Rat) / period
    rcv_packets_rate := ((cur.rcv_packets - old.rcv_packets : Int) : Rat) / period }

/-- Whole per-line body of `NetMonitor::UpdateOnce`: parse the line, and for
an accepted interface look up the history, emit a rate message only when a
previous sample exists with positive elapsed time, and upsert the history
with the new sample unconditionally. -/
def netProcessLine (hist : List (String × NetInfo)) (now : Rat) (toks : List String) :
    Except CxxErr (List (String × NetInfo) × Option NetRateMsg) := do
  match ← netParseLine now toks with
  | none => pure (hist, none)
  | some cur =>
    let msg? := match histFind hist cur.name with
      | some old =>
        let period := now - old.timepoint
        if 0 < period then some (netMkMsg cur old period) else none
      | none => none
    pure (histInsert hist cur.name cur, msg?)

/-- Embedding of `NetMonitor::UpdateOnce` over the token lines read from
`/proc/net/dev`: processes the lines in order, threading the history map
and collecting the emitted messages in file order. -/
def netUpdateOnce (hist : List (String × NetInfo)) (now : Rat) :
    List (List String) → Except CxxErr (List (String × NetInfo) × List NetRateMsg)
  | [] => .ok (hist, [])
  | toks :: rest => do
    let (h1, m?) ← netProcessLine hist now toks
    let (h2, ms) ← netUpdateOnce h1 now rest
    pure (h2, consOpt m? ms)


/-- Raw per-CPU sample of `CpuSoftIrqMonitor` (`struct SoftIrq` in
`cpu_softirq_monitor.h`): the ten interrupt-class counters of one CPU
column of `/proc/softirqs` plus the capture instant. -/
structure SoftIrq where
  cpu_name : String
  hi : Int
  timer : Int
  net_tx : Int
  net_rx : Int
  block : Int
  irq_poll : Int
  tasklet : Int
  sched : Int
  hrtimer : Int
  rcu : Int
  timepoint : Rat
deriving Repr, DecidableEq

/-- Emitted per-CPU message of `CpuSoftIrqMonitor` (the fields set on
`monitor_info->add_soft_irq()`): ten interrupt rates. -/
structure SoftIrqMsg where
  cpu : String
  hi : Rat
  timer : Rat
  net_tx : Rat
  net_rx : Rat
  block : Rat
  irq_poll : Rat
  tasklet : Rat
  sched : Rat
  hrtimer : Rat
  rcu : Rat
deriving Repr, DecidableEq

/-- Reads cell `(r, c)` of the row-major `/proc/softirqs` token matrix and
converts it with `std::stoll`; either index can be out of bounds. -/
def cellStoll (rows : List (List String)) (r c : Nat) : Except CxxErr Int := do
  let row ← vecGet rows r
  stollTok row c

/-- Body of one iteration of the column loop of
`CpuSoftIrqMonitor::UpdateOnce` up to the history lookup: the CPU name is
`softirq[0][i]` and the ten counters are `softirq[1][i+1]` through
`softirq[10][i+1]`. -/
def softIrqParseCol (rows : List (List String)) (now : Rat) (i : Nat) :
    Except CxxErr SoftIrq := do
  let header ← vecGet rows 0
  let name ← vecGet header i
  let hi ← cellStoll rows 1 (i + 1)
  let timer ← cellStoll rows 2 (i + 1)
  let net_tx ← cellStoll rows 3 (i + 1)
  let net_rx ← cellStoll rows 4 (i + 1)
  let block ← cellStoll rows 5 (i + 1)
  let irq_poll ← cellStoll rows 6 (i + 1)
  let tasklet ← cellStoll rows 7 (i + 1)
  let sched ← cellStoll rows 8 (i + 1)
  let hrtimer ← cellStoll rows 9 (i + 1)
  let rcu ← cellStoll rows 10 (i + 1)
  pure { cpu_name := name, hi := hi, timer := timer, net_tx := net_tx,
         net_rx := net_rx, block := block, irq_poll := irq_poll,
         tasklet := tasklet, sched := sched, hrtimer := hrtimer, rcu := rcu,
         timepoint := now }

/-- Rate message `CpuSoftIrqMonitor::UpdateOnce` fills in when a previous
sample exists and the elapsed time is positive: each counter delta divided
by the period. -/
def softIrqMkMsg (cur old : SoftIrq) (period : Rat) : SoftIrqMsg :=
  { cpu := cur.cpu_name
    hi := ((cur.hi - old.hi : Int) : Rat) / period
    timer := ((cur.timer - old.timer : Int) : Rat) / period
    net_tx := ((cur.net_tx - old.net_tx : Int) : Rat) / period
    net_rx := ((cur.net_rx - old.net_rx : Int) : Rat) / period
    block := ((cur.block - old.block : Int) : Rat) / period
    irq_poll := ((cur.irq_poll - old.irq_poll : Int) : Rat) / period
    tasklet := ((cur.tasklet - old.tasklet : Int) : Rat) / period
    sched := ((cur.sched - old.sched : Int) : Rat) / period
    hrtimer := ((cur.hrtimer - old.hrtimer : Int) : Rat) / period
    rcu := ((cur.rcu - old.rcu : Int) : Rat) / period }

/-- Whole body of one iteration of the column loop of
`CpuSoftIrqMonitor::UpdateOnce`: parse column `i`, emit a rate message only
when a previous sample for that CPU exists with positive elapsed time, and
upsert the history with the new sample unconditionally. -/
def softIrqStep (rows : List (List String)) (now : Rat)
    (hist : List (String × SoftIrq)) (i : Nat) :
    Except CxxErr (List (String × SoftIrq) × Option SoftIrqMsg) := do
  let cur ← softIrqParseCol rows now i
  let msg? := match histFind hist cur.cpu_name with
    | some old =>
      let period := now - old.timepoint
      if 0 < period then some (softIrqMkMsg cur old period) else none
    | none => none
  pure (histInsert hist cur.cpu_name cur, msg?)

/-- Column loop of `CpuSoftIrqMonitor::UpdateOnce`
(`for (int i = 0; i < softirq[0].size() - 1; i++)`), running `fuel`
remaining iterations starting at column index `i`. -/
def softIrqLoop (rows : List (List String)) (now : Rat) :
    Nat → Nat → List (String × SoftIrq) →
    Except CxxErr (List (String × SoftIrq) × List SoftIrqMsg)
  | 0, _, hist => .ok (hist, [])
  | fuel + 1, i, hist => do
    let (h1, m?) ← softIrqStep rows now hist i
    let (h2, ms) ← softIrqLoop rows now fuel (i + 1) h1
    pure (h2, consOpt m? ms)

/-- Embedding of `CpuSoftIrqMonitor::UpdateOnce` over the token matrix read
from `/proc/softirqs`: the loop bound is `softirq[0].size() - 1` computed
in `size_t` (reading `softirq[0]` of an empty matrix is undefined
behaviour, surfaced as `oob`). -/
def softIrqUpdateOnce (hist : List (String × SoftIrq)) (now : Rat)
    (rows : List (List String)) :
    Except CxxErr (List (String × SoftIrq) × List SoftIrqMsg) := do
  let header ← vecGet rows 0
  softIrqLoop rows now (sizetDec header.length) 0 hist

/-- Raw per-CPU sample of `CpuStatMonitor` (`struct CpuStat` in
`cpu_stat_monitor.h`): the ten jiffy counters of one `/proc/stat` CPU
line, stored through `std::stof` as floating values. -/
structure CpuStat where
  cpu_name : String
  user : Rat
  system : Rat
  idle : Rat
  nice : Rat
  io_wait : Rat
  irq : Rat
  soft_irq : Rat
  steal : Rat
  guest : Rat
  guest_nice : Rat
deriving Repr, DecidableEq

/-- Emitted per-CPU message of `CpuStatMonitor` (the fields set on
`monitor_info->add_cpu_stat()`). -/
structure CpuStatMsg where
  cpu_name : String
  cpu_percent : Rat
  usr_percent : Rat
  system_percent : Rat
  nice_percent : Rat
  idle_percent : Rat
  io_wait_percent : Rat
  irq_percent : Rat
  soft_irq_percent : Rat
deriving Repr, DecidableEq

/-- Default-constructed protobuf `cpu_stat` entry: the message
`monitor_info->add_cpu_stat()` appends before any setter runs (empty name,
all percentages zero). -/
def defaultCpuStatMsg : CpuStatMsg :=
  { cpu_name := "", cpu_percent := 0, usr_percent := 0, system_percent := 0,
    nice_percent := 0, idle_percent := 0, io_wait_percent := 0,
    irq_percent := 0, soft_irq_percent := 0 }

/-- Total jiffy sum of `CpuStatMonitor::UpdateOnce`
(`new_cpu_total_time` / `old_cpu_total_time`): the 8 components
user, system, idle, nice, io_wait, irq, soft_irq, steal; guest and
guest_nice are excluded. -/
def cpuTotal (s : CpuStat) : Rat :=
  s.user + s.system + s.idle + s.nice + s.io_wait + s.irq + s.soft_irq + s.steal

/-- Busy jiffy sum of `CpuStatMonitor::UpdateOnce`
(`new_cpu_busy_time` / `old_cpu_busy_time`). -/
def cpuBusy (s : CpuStat) : Rat :=
  s.user + s.system + s.nice + s.irq + s.soft_irq + s.steal

/-- Parsing part of the per-line body of `CpuStatMonitor::UpdateOnce`: the
entity name is token 0 and the ten jiffy counters are tokens 1-10 read
with `std::stof`. -/
def cpuParseStat (toks : List String) : Except CxxErr CpuStat := do
  let name ← vecGet toks 0
  let user ← stofTok toks 1
  let nice ← stofTok toks 2
  let system ← stofTok toks 3
  let idle ← stofTok toks 4
  let io_wait ← stofTok toks 5
  let irq ← stofTok toks 6
  let soft_irq ← stofTok toks 7
  let steal ← stofTok toks 8
  let guest ← stofTok toks 9
  let guest_nice ← stofTok toks 10
  pure { cpu_name := name, user := user, system := system, idle := idle,
         nice := nice, io_wait := io_wait, irq := irq, soft_irq := soft_irq,
         steal := steal, guest := guest, guest_nice := guest_nice }

/-- Percentage message `CpuStatMonitor::UpdateOnce` fills in when the total
jiffy delta is positive: each delta over the total delta times 100. -/
def cpuMkMsg (cur old : CpuStat) : CpuStatMsg :=
  let d := cpuTotal cur - cpuTotal old
  { cpu_name := cur.cpu_name
    cpu_percent := (cpuBusy cur - cpuBusy old) / d * 100
    usr_percent := (cur.user - old.user) / d * 100
    system_percent := (cur.system - old.system) / d * 100
    nice_percent := (cur.nice - old.nice) / d * 100
    idle_percent := (cur.idle - old.idle) / d * 100
    io_wait_percent := (cur.io_wait - old.io_wait) / d * 100
    irq_percent := (cur.irq - old.irq) / d * 100
    soft_irq_percent := (cur.soft_irq - old.soft_irq) / d * 100 }

/-- Whole per-line body of `CpuStatMonitor::UpdateOnce`: lines whose first
token contains `"cpu"` are parsed; when a previous sample exists an entry
is appended to the snapshot unconditionally (`add_cpu_stat()` runs before
the `total_time_diff > 0` guard) but its fields are set only when the
total jiffy delta is positive, so a non-positive delta leaves the appended
entry at its default value; the history is upserted unconditionally. -/
def cpuProcessLine (hist : List (String × CpuStat)) (toks : List String) :
    Except CxxErr (List (String × CpuStat) × Option CpuStatMsg) := do
  let name0 ← vecGet toks 0
  if strContainsSub name0 "cpu" then do
    let cur ← cpuParseStat toks
    let msg? := match histFind hist cur.cpu_name with
      | some old =>
        some (if 0 < cpuTotal cur - cpuTotal old then cpuMkMsg cur old
              else defaultCpuStatMsg)
      | none => none
    pure (histInsert hist cur.cpu_name cur, msg?)
  else
    pure (hist, none)

/-- Embedding of `CpuStatMonitor::UpdateOnce` over the token lines read
from `/proc/stat`. -/
def cpuUpdateOnce (hist : List (String × CpuStat)) :
    List (List String) → Except CxxErr (List (String × CpuStat) × List CpuStatMsg)
  | [] => .ok (hist, [])
  | toks :: rest => do
    let (h1, m?) ← cpuProcessLine hist toks
    let (h2, ms) ← cpuUpdateOnce h1 rest
    pure (h2, consOpt m? ms)

/-- Emitted message of `CpuLoadMonitor` (the fields set on
`monitor_info->mutable_cpu_load()`). -/
structure CpuLoadMsg where
  load_avg_1 : Rat
  load_avg_3 : Rat
  load_avg_15 : Rat
deriving Repr, DecidableEq

/-- Embedding of `CpuLoadMonitor::UpdateOnce` over the token line read from
`/proc/loadavg`: tokens 0-2 converted with `std::stof` (an absent token is
an out-of-bounds `cpu_load[i]` access). -/
def loadUpdateOnce (toks : List String) : Except CxxErr CpuLoadMsg := do
  let a1 ← stofTok toks 0
  let a3 ← stofTok toks 1
  let a15 ← stofTok toks 2
  pure { load_avg_1 := a1, load_avg_3 := a3, load_avg_15 := a15 }

/-- Accumulated values of `MemMonitor` (`struct MenInfo` in
`mem_monitor.h`), in KB.  The C++ struct is declared without initializers,
so the value before any line is parsed is indeterminate; the embedding
threads it as an explicit starting value. -/
structure MenInfo where
  total : Int
  free : Int
  avail : Int
  buffers : Int
  cached : Int
  swap_cached : Int
  active : Int
  in_active : Int
  active_anon : Int
  inactive_anon : Int
  active_file : Int
  inactive_file : Int
  dirty : Int
  writeback : Int
  anon_pages : Int
  mapped : Int
  kReclaimable : Int
  sReclaimable : Int
  sUnreclaim : Int
deriving Repr, DecidableEq

/-- Emitted memory message of `MemMonitor` (the fields set on
`monitor_info->mutable_mem_info()`): the used percentage and the gauges
scaled from KB to GB. -/
structure MemMsg where
  used_percent : Rat
  total : Rat
  free : Rat
  avail : Rat
  buffers : Rat
  cached : Rat
  swap_cached : Rat
  active : Rat
  inactive : Rat
  active_anon : Rat
  inactive_anon : Rat
  active_file : Rat
  inactive_file : Rat
  dirty : Rat
  writeback : Rat
  anon_pages : Rat
  mapped : Rat
  kreclaimable : Rat
  sreclaimable : Rat
  sunreclaim : Rat
deriving Repr, DecidableEq

/-- The `KBToGB` divisor of `mem_monitor.cpp`: `1000 * 1000` (1000-based,
not 1024-based). -/
def KBToGB : Rat := 1000 * 1000

/-- One iteration of the label-matching chain of `MemMonitor::UpdateOnce`:
token 0 selects the field, token 1 is converted with `std::stoll`;
unrecognized labels leave the accumulator unchanged. -/
def memApplyLine (m : MenInfo) (toks : List String) : Except CxxErr MenInfo := do
  let label ← vecGet toks 0
  if label = "MemTotal:" then do
    let v ← stollTok toks 1; pure { m with total := v }
  else if label = "MemFree:" then do
    let v ← stollTok toks 1; pure { m with free := v }
  else if label = "MemAvailable:" then do
    let v ← stollTok toks 1; pure { m with avail := v }
  else if label = "Buffers:" then do
    let v ← stollTok toks 1; pure { m with buffers := v }
  else if label = "Cached:" then do
    let v ← stollTok toks 1; pure { m with cached := v }
  else if label = "SwapCached:" then do
    let v ← stollTok toks 1; pure { m with swap_cached := v }
  else if label = "Active:" then do
    let v ← stollTok toks 1; pure { m with active := v }
  else if label = "Inactive:" then do
    let v ← stollTok toks 1; pure { m with in_active := v }
  else if label = "Active(anon):" then do
    let v ← stollTok toks 1; pure { m with active_anon := v }
  else if label = "Inactive(anon):" then do
    let v ← stollTok toks 1; pure { m with inactive_anon := v }
  else if label = "Active(file):" then do
    let v ← stollTok toks 1; pure { m with active_file := v }
  else if label = "Inactive(file):" then do
    let v ← stollTok toks 1; pure { m with inactive_file := v }
  else if label = "Dirty:" then do
    let v ← stollTok toks 1; pure { m with dirty := v }
  else if label = "Writeback:" then do
    let v ← stollTok toks 1; pure { m with writeback := v }
  else if label = "AnonPages:" then do
    let v ← stollTok toks 1; pure { m with anon_pages := v }
  else if label = "Mapped:" then do
    let v ← stollTok toks 1; pure { m with mapped := v }
  else if label = "KReclaimable:" then do
    let v ← stollTok toks 1; pure { m with kReclaimable := v }
  else if label = "SReclaimable:" then do
    let v ← stollTok toks 1; pure { m with sReclaimable := v }
  else if label = "SUnreclaim:" then do
    let v ← stollTok toks 1; pure { m with sUnreclaim := v }
  else
    pure m

/-- The read loop of `MemMonitor::UpdateOnce` over the lines of
`/proc/meminfo`. -/
def memFoldLines (m : MenInfo) : List (List String) → Except CxxErr MenInfo
  | [] => .ok m
  | toks :: rest => do
    let m1 ← memApplyLine m toks
    memFoldLines m1 rest

/-- Output stage of `MemMonitor::UpdateOnce`: the used percentage
`(total - avail) * 1.0 / total * 100.0` (using `MemAvailable`, not
`MemFree`) and every gauge divided by `KBToGB`. -/
def memBuildMsg (m : MenInfo) : MemMsg :=
  { used_percent := ((m.total - m.avail : Int) : Rat) / (m.total : Rat) * 100
    total := (m.total : Rat) / KBToGB
    free := (m.free : Rat) / KBToGB
    avail := (m.avail : Rat) / KBToGB
    buffers := (m.buffers : Rat) / KBToGB
    cached := (m.cached : Rat) / KBToGB
    swap_cached := (m.swap_cached : Rat) / KBToGB
    active := (m.active : Rat) / KBToGB
    inactive := (m.in_active : Rat) / KBToGB
    active_anon := (m.active_anon : Rat) / KBToGB
    inactive_anon := (m.inactive_anon : Rat) / KBToGB
    active_file := (m.active_file : Rat) / KBToGB
    inactive_file := (m.inactive_file : Rat) / KBToGB
    dirty := (m.dirty : Rat) / KBToGB
    writeback := (m.writeback : Rat) / KBToGB
    anon_pages := (m.anon_pages : Rat) / KBToGB
    mapped := (m.mapped : Rat) / KBToGB
    kreclaimable := (m.kReclaimable : Rat) / KBToGB
    sreclaimable := (m.sReclaimable : Rat) / KBToGB
    sunreclaim := (m.sUnreclaim : Rat) / KBToGB }

/-- Embedding of `MemMonitor::UpdateOnce`: fold the lines into the
accumulator starting from the (indeterminate) initial struct value, then
build the output message. -/
def memUpdateOnce (init : MenInfo) (lines : List (List String)) :
    Except CxxErr MemMsg :=
  (memFoldLines init lines).map memBuildMsg

/-- Operations of the snapshot distribution cache `GrpcManagerImpl`:
`setOp` is the `SetMonitorInfo` RPC, `getOp` is the `GetMonitorInfo` RPC. -/
inductive CacheOp (α : Type) where
  | setOp (s : α)
  | getOp
deriving Repr, DecidableEq

/-- One cache RPC against the held value: `SetMonitorInfo` clears and then
overwrites the stored message unconditionally and returns nothing;
`GetMonitorInfo` copies the stored message into the response. -/
def cacheStep {α : Type} (st : α) : CacheOp α → α × Option α
  | .setOp s => (s, none)
  | .getOp => (st, some st)

/-- Runs a sequence of cache RPCs from a held value, returning the final
held value and the responses of the `get` calls in order. -/
def cacheRun {α : Type} (st : α) : List (CacheOp α) → α × List α
  | [] => (st, [])
  | op :: ops =>
    let (st1, out?) := cacheStep st op
    let (st2, outs) := cacheRun st1 ops
    (st2, consOpt out? outs)

/-- Specification-side description of the cache contract: the value a
`get` should observe is the most recently set value, or the
default-constructed message `d` when no set has ever occurred. -/
def lastSetVal {α : Type} (d : α) : List (CacheOp α) → α
  | [] => d
  | .setOp s :: ops => lastSetVal s ops
  | .getOp :: ops => lastSetVal d ops

/-- Sampler history state of the collector process: one map per
history-keeping monitor, owned by that monitor alone. -/
structure Histories where
  softirqHist : List (String × SoftIrq)
  cpuStatHist : List (String × CpuStat)
  netHist : List (String × NetInfo)
deriving Repr, DecidableEq

/-- Token contents of the five `/proc` sources as read in one tick. -/
structure TickInput where
  softirqRows : List (List String)
  loadToks : List String
  statLines : List (List String)
  memLines : List (List String)
  netLines : List (List String)
deriving Repr, DecidableEq

/-- One tick's snapshot (`monitor::proto::MonitorInfo`): the host name and
the per-domain message lists filled by the five `UpdateOnce` calls. -/
structure Snapshot where
  name : String
  soft_irqs : List SoftIrqMsg
  cpu_load : Option CpuLoadMsg
  cpu_stats : List CpuStatMsg
  mem_info : Option MemMsg
  net_infos : List NetRateMsg
deriving Repr, DecidableEq

/-- One tick of the collection loop in `main.cpp`: the five monitors run in
the `runners_` emplacement order (softirq, load, stat, mem, net), each
filling its part of the snapshot.  No handler is installed anywhere on the
path, so the first exception propagates out of the tick and the partially
filled snapshot is abandoned. -/
def collectTick (hists : Histories) (hostName : Option String) (now : Rat)
    (memInit : MenInfo) (inp : TickInput) : Except CxxErr (Histories × Snapshot) := do
  let (sHist, sMsgs) ← softIrqUpdateOnce hists.softirqHist now inp.softirqRows
  let loadMsg ← loadUpdateOnce inp.loadToks
  let (cHist, cMsgs) ← cpuUpdateOnce hists.cpuStatHist inp.statLines
  let memMsg ← memUpdateOnce memInit inp.memLines
  let (nHist, nMsgs) ← netUpdateOnce hists.netHist now inp.netLines
  pure ({ softirqHist := sHist, cpuStatHist := cHist, netHist := nHist },
        { name := hostName.getD "unknown_host", soft_irqs := sMsgs,
          cpu_load := some loadMsg, cpu_stats := cMsgs,
          mem_info := some memMsg, net_infos := nMsgs })

/-- The collection loop of `main.cpp` over a list of tick inputs (each with
its capture instant and the indeterminate initial memory struct of that
tick): every completed snapshot is published via `SetMonitorInfo`; an
uncaught exception ends the loop (and the process), publishing nothing for
that tick, and no later tick runs. -/
def runLoop (hists : Histories) (hostName : Option String) :
    List (Rat × MenInfo × TickInput) → List Snapshot × Option CxxErr
  | [] => ([], none)
  | (now, memInit, inp) :: rest =>
    match collectTick hists hostName now memInit inp with
    | .error e => ([], some e)
    | .ok (h1, snap) =>
      let (snaps, e?) := runLoop h1 hostName rest
      (snap :: snaps, e?)
/-- Load message parsed from the sample `/proc/loadavg` tokens. -/
def c6LoadMsg : CpuLoadMsg := { load_avg_1 := 1/2, load_avg_3 := 2/5, load_avg_15 := 3/10 }

/-- Sample `/proc/net/dev` interface line with the full 17 fields. -/
def netSampleLine : List String :=
  ["eth0:", "100", "10", "1", "2", "0", "0", "0", "0",
   "200", "20", "3", "4", "0", "0", "0", "0"]

/-- The raw sample `netSampleLine` parses to at capture instant 0. -/
def netSampleInfo : NetInfo :=
  { name := "eth0", rcv_bytes := 100, rcv_packets := 10, err_in := 1, drop_in := 2,
    snd_bytes := 200, snd_packets := 20, err_out := 3, drop_out := 4, timepoint := 0 }

/-- Result of a first-observation `NetMonitor` call on `netSampleLine`. -/
def netC1Res : List (String × NetInfo) × List NetRateMsg := ([("eth0", netSampleInfo)], [])

/-- Second-tick `/proc/net/dev` line for the same interface. -/
def netLine2 : List String :=
  ["eth0:", "2048", "110", "1", "2", "0", "0", "0", "0",
   "5120", "1100", "3", "4", "0", "0", "0", "0"]

/-- Prior-tick raw sample for `netLine2`, captured at instant 0. -/
def netOldInfo : NetInfo :=
  { name := "eth0", rcv_bytes := 1024, rcv_packets := 10, err_in := 0, drop_in := 0,
    snd_bytes := 0, snd_packets := 100, err_out := 0, drop_out := 0, timepoint := 0 }

/-- The raw sample `netLine2` parses to at capture instant 5. -/
def netCur2Info : NetInfo :=
  { name := "eth0", rcv_bytes := 2048, rcv_packets := 110, err_in := 1, drop_in := 2,
    snd_bytes := 5120, snd_packets := 1100, err_out := 3, drop_out := 4, timepoint := 5 }

/-- A record whose first token ends with a colon but also contains an
earlier colon, with at least 10 fields. -/
def netColonTwiceLine : List String :=
  ["a:b:", "1", "2", "3", "4", "5", "6", "7", "8", "9", "10", "11", "12", "13"]

/-- A record that passes the `NetMonitor` guard with exactly 10 fields. -/
def netTenTokenLine : List String :=
  ["eth0:", "1", "2", "3", "4", "5", "6", "7", "8", "9"]

/-- A `/proc/softirqs` token matrix with two CPU columns. -/
def softirqTwoCpuRows : List (List String) :=
  [["CPU0", "CPU1"],
   ["HI:", "1", "2"],
   ["TIMER:", "3", "4"],
   ["NET_TX:", "0", "0"],
   ["NET_RX:", "5", "6"],
   ["BLOCK:", "0", "0"],
   ["IRQ_POLL:", "0", "0"],
   ["TASKLET:", "0", "0"],
   ["SCHED:", "7", "8"],
   ["HRTIMER:", "0", "0"],
   ["RCU:", "9", "10"]]

/-- The raw sample column 0 of `softirqTwoCpuRows` parses to at instant 0. -/
def softTwoCpuInfo : SoftIrq :=
  { cpu_name := "CPU0", hi := 1, timer := 3, net_tx := 0, net_rx := 5, block := 0,
    irq_poll := 0, tasklet := 0, sched := 7, hrtimer := 0, rcu := 9, timepoint := 0 }

/-- A `/proc/softirqs` token matrix whose CPU0 TIMER counter is 1100. -/
def softirqRatesRows : List (List String) :=
  [["CPU0", "CPU1"],
   ["HI:", "10", "0"],
   ["TIMER:", "1100", "0"],
   ["NET_TX:", "20", "0"],
   ["NET_RX:", "30", "0"],
   ["BLOCK:", "40", "0"],
   ["IRQ_POLL:", "50", "0"],
   ["TASKLET:", "60", "0"],
   ["SCHED:", "70", "0"],
   ["HRTIMER:", "80", "0"],
   ["RCU:", "90", "0"]]

/-- Prior-tick raw softirq sample with TIMER counter 100, captured at 0. -/
def softOldInfo : SoftIrq :=
  { cpu_name := "CPU0", hi := 0, timer := 100, net_tx := 0, net_rx := 0, block := 0,
    irq_poll := 0, tasklet := 0, sched := 0, hrtimer := 0, rcu := 0, timepoint := 0 }

/-- The raw sample column 0 of `softirqRatesRows` parses to at instant 5. -/
def softCurInfo : SoftIrq :=
  { cpu_name := "CPU0", hi := 10, timer := 1100, net_tx := 20, net_rx := 30, block := 40,
    irq_poll := 50, tasklet := 60, sched := 70, hrtimer := 80, rcu := 90, timepoint := 5 }

/-- A `/proc/stat` aggregate line with seven components at 1 jiffy. -/
def cpuLineOne : List String :=
  ["cpu", "1", "1", "1", "1", "1", "1", "1", "0", "0", "0"]

/-- The raw sample `cpuLineOne` parses to. -/
def cpuStatOne : CpuStat :=
  { cpu_name := "cpu", user := 1, system := 1, idle := 1, nice := 1, io_wait := 1,
    irq := 1, soft_irq := 1, steal := 0, guest := 0, guest_nice := 0 }

/-- A second-tick `/proc/stat` aggregate line: only `user` advanced. -/
def cpuLineTwo : List String :=
  ["cpu", "2", "1", "1", "1", "1", "1", "1", "0", "0", "0"]

/-- The raw sample `cpuLineTwo` parses to. -/
def cpuStatTwo : CpuStat :=
  { cpu_name := "cpu", user := 2, system := 1, idle := 1, nice := 1, io_wait := 1,
    irq := 1, soft_irq := 1, steal := 0, guest := 0, guest_nice := 0 }

/-- Previous sample whose 8 tracked components are all zero. -/
def cpuStatZero : CpuStat :=
  { cpu_name := "cpu0", user := 0, system := 0, idle := 0, nice := 0, io_wait := 0,
    irq := 0, soft_irq := 0, steal := 0, guest := 0, guest_nice := 0 }

/-- Current sample giving a total jiffy delta of 1000 with a user delta
of 300 over `cpuStatZero`. -/
def cpuStatThousand : CpuStat :=
  { cpu_name := "cpu0", user := 300, system := 200, idle := 500, nice := 0, io_wait := 0,
    irq := 0, soft_irq := 0, steal := 0, guest := 0, guest_nice := 0 }

/-- All-zero value of the accumulated memory struct. -/
def zeroMenInfo : MenInfo :=
  { total := 0, free := 0, avail := 0, buffers := 0, cached := 0, swap_cached := 0,
    active := 0, in_active := 0, active_anon := 0, inactive_anon := 0,
    active_file := 0, inactive_file := 0, dirty := 0, writeback := 0,
    anon_pages := 0, mapped := 0, kReclaimable := 0, sReclaimable := 0, sUnreclaim := 0 }

/-- Sample `/proc/meminfo` contents: 16000000 KB total, 8000000 KB available. -/
def memSampleLines : List (List String) :=
  [["MemTotal:", "16000000", "kB"], ["MemAvailable:", "8000000", "kB"]]

/-- The accumulated memory struct `memSampleLines` folds to from zero. -/
def c9Mem : MenInfo := { zeroMenInfo with total := 16000000, avail := 8000000 }

/-- Empty history state, the state at process start. -/
def emptyHistories : Histories :=
  { softirqHist := [], cpuStatHist := [], netHist := [] }

/-- A tick input on which all five samplers succeed. -/
def tickOkInput : TickInput :=
  { softirqRows := [["CPU0"]]
    loadToks := ["0.5", "0.4", "0.3", "1/234", "5678"]
    statLines := [cpuLineOne]
    memLines := memSampleLines
    netLines := [] }

/-- A tick input whose network source holds one malformed record (the
first counter token is not a number), all other domains well-formed. -/
def tickBadNetInput : TickInput :=
  { softirqRows := [["CPU0"]]
    loadToks := ["0.5", "0.4", "0.3", "1/234", "5678"]
    statLines := [cpuLineTwo]
    memLines := memSampleLines
    netLines := [["eth0:", "x", "2", "3", "4", "5", "6", "7", "8", "9",
                  "10", "11", "12", "13"]] }

/-- Result of one successful collection tick on `tickOkInput` from empty
histories. -/
def c6OkRes : Histories × Snapshot :=
  ({ softirqHist := [], cpuStatHist := [("cpu", cpuStatOne)], netHist := [] },
   { name := "host", soft_irqs := [], cpu_load := some c6LoadMsg, cpu_stats := [],
     mem_info := some (memBuildMsg c9Mem), net_infos := [] })

theorem histFind_insert_self {α : Type} (m : List (String × α)) (k : String) (v : α) :
    histFind (histInsert m k v) k = some v := by
  induction m with
  | nil => simp [histInsert, histFind]
  | cons p rest ih =>
    obtain ⟨k', w⟩ := p
    by_cases h : k' = k
    · simp [histInsert, h, histFind]
    · simp [histInsert, h, histFind, ih]

theorem histFind_insert_ne {α : Type} (m : List (String × α)) (k k' : String) (v : α)
    (h : k ≠ k') : histFind (histInsert m k v) k' = histFind m k' := by
  induction m with
  | nil => simp [histInsert, histFind, h]
  | cons p rest ih =>
    obtain ⟨k₀, w⟩ := p
    by_cases h0 : k₀ = k
    · simp [histInsert, h0, histFind, h]
    · simp [histInsert, h0, histFind, ih]

theorem except_bind_eq_ok {ε α β : Type} {x : Except ε α} {f : α → Except ε β} {b : β} :
    (x >>= f = Except.ok b) ↔ ∃ a, x = Except.ok a ∧ f a = Except.ok b := by
  cases x with
  | error e =>
    constructor
    · intro h; exact absurd h (by simp [Bind.bind, Except.bind])
    · rintro ⟨a, ha, _⟩; cases ha
  | ok a =>
    constructor
    · intro h; exact ⟨a, rfl, h⟩
    · rintro ⟨a', ha, hf⟩; cases ha; exact hf

theorem except_pure_def {ε α : Type} (a : α) : (pure a : Except ε α) = Except.ok a := rfl


theorem netParseLine_ok_some {now : Rat} {toks : List String} {cur : NetInfo}
    (h : netParseLine now toks = .ok (some cur)) :
    cur.timepoint = now ∧ netLineIsInterface toks = true := by
  unfold netParseLine at h
  simp only [except_bind_eq_ok] at h
  obtain ⟨name0, h0, h⟩ := h
  split at h
  · simp only [except_bind_eq_ok, except_pure_def] at h
    obtain ⟨nm, h1, rb, h2, rp, h3, ei, h4, di, h5, sb, h6, sp, h7, eo, h8, dr, h9, hfin⟩ := h
    have : some (⟨nm, rb, rp, ei, di, sb, sp, eo, dr, now⟩ : NetInfo) = some cur := by
      exact Except.ok.inj hfin
    cases this
    exact ⟨rfl, by assumption⟩
  · simp only [except_pure_def] at h
    exact absurd (Except.ok.inj h) (by simp)

theorem netProcessLine_ok {hist : List (String × NetInfo)} {now : Rat}
    {toks : List String} {res : List (String × NetInfo) × Option NetRateMsg}
    (h : netProcessLine hist now toks = .ok res) :
    (netParseLine now toks = .ok none ∧ res = (hist, none)) ∨
    (∃ cur, netParseLine now toks = .ok (some cur) ∧
      res = (histInsert hist cur.name cur,
        match histFind hist cur.name with
        | some old =>
          if 0 < now - old.timepoint then some (netMkMsg cur old (now - old.timepoint))
          else none
        | none => none)) := by
  unfold netProcessLine at h
  simp only [except_bind_eq_ok] at h
  obtain ⟨o, hp, h⟩ := h
  cases o with
  | none =>
    left
    simp only [except_pure_def] at h
    exact ⟨hp, (Except.ok.inj h).symm⟩
  | some cur =>
    right
    simp only [except_pure_def] at h
    exact ⟨cur, hp, (Except.ok.inj h).symm⟩

theorem histFind_insert_isSome {α : Type} (m : List (String × α)) (k key : String) (v : α)
    (h : (histFind m k).isSome) : (histFind (histInsert m key v) k).isSome := by
  by_cases hk : key = k
  · subst hk; simp [histFind_insert_self]
  · rwa [histFind_insert_ne m key k v hk]

theorem netAux (now : Rat) (name : String) (lines : List (List String)) :
    ∀ (hist : List (String × NetInfo)) (res : List (String × NetInfo) × List NetRateMsg),
      netUpdateOnce hist now lines = .ok res →
      (∀ c, histFind hist name = some c → c.timepoint = now) →
      ((∀ m ∈ res.2, m.name ≠ name) ∧
       (∀ c, histFind res.1 name = some c → c.timepoint = now) ∧
       (∀ k, (histFind hist k).isSome → (histFind res.1 k).isSome)) := by
  induction lines with
  | nil =>
    intro hist res h hinv
    unfold netUpdateOnce at h
    cases Except.ok.inj h
    exact ⟨by simp, hinv, fun k hk => hk⟩
  | cons toks rest ih =>
    intro hist res h hinv
    unfold netUpdateOnce at h
    simp only [except_bind_eq_ok, except_pure_def] at h
    obtain ⟨a, hp, b, hrest, hres⟩ := h
    have hres' := Except.ok.inj hres
    subst hres'
    rcases netProcessLine_ok hp with ⟨hnone, rfl⟩ | ⟨cur, hsome, rfl⟩
    · simp only at hrest
      obtain ⟨ih1, ih2, ih3⟩ := ih hist b hrest hinv
      simp only [consOpt]
      exact ⟨ih1, ih2, ih3⟩
    · have tp : cur.timepoint = now := (netParseLine_ok_some hsome).1
      simp only at hrest
      have inv1 : ∀ c, histFind (histInsert hist cur.name cur) name = some c →
          c.timepoint = now := by
        by_cases hc : cur.name = name
        · intro c hcc
          rw [hc, histFind_insert_self] at hcc
          cases Option.some.inj hcc
          exact tp
        · intro c hcc
          rw [histFind_insert_ne hist cur.name name cur hc] at hcc
          exact hinv c hcc
      obtain ⟨ih1, ih2, ih3⟩ := ih (histInsert hist cur.name cur) b hrest inv1
      refine ⟨?_, ih2, ?_⟩
      · intro m hm
        simp only at hm
        rcases hfind : histFind hist cur.name with _ | old
        · rw [hfind] at hm
          exact ih1 m (by simpa [consOpt] using hm)
        · rw [hfind] at hm
          dsimp only at hm
          by_cases hpos : 0 < now - old.timepoint
          · rw [if_pos hpos] at hm
            simp only [consOpt, List.mem_cons] at hm
            rcases hm with rfl | hm
            · show (netMkMsg cur old (now - old.timepoint)).name ≠ name
              intro hcn
              have hcn' : cur.name = name := hcn
              rw [hcn'] at hfind
              have h0 := hinv old hfind
              rw [h0] at hpos
              simp at hpos
            · exact ih1 m hm
          · rw [if_neg hpos] at hm
            exact ih1 m (by simpa [consOpt] using hm)
      · intro k hk
        exact ih3 k (histFind_insert_isSome hist k cur.name cur hk)

theorem softIrqParseCol_ok {rows : List (List String)} {now : Rat} {i : Nat}
    {cur : SoftIrq} (h : softIrqParseCol rows now i = .ok cur) :
    cur.timepoint = now := by
  unfold softIrqParseCol at h
  simp only [except_bind_eq_ok, except_pure_def] at h
  obtain ⟨hd, h0, nm, h1, v1, h2, v2, h3, v3, h4, v4, h5, v5, h6, v6, h7, v7, h8,
         v8, h9, v9, h10, v10, h11, hfin⟩ := h
  cases Except.ok.inj hfin
  rfl

theorem softIrqStep_ok {rows : List (List String)} {now : Rat}
    {hist : List (String × SoftIrq)} {i : Nat}
    {res : List (String × SoftIrq) × Option SoftIrqMsg}
    (h : softIrqStep rows now hist i = .ok res) :
    ∃ cur, softIrqParseCol rows now i = .ok cur ∧
      res = (histInsert hist cur.cpu_name cur,
        match histFind hist cur.cpu_name with
        | some old =>
          if 0 < now - old.timepoint then some (softIrqMkMsg cur old (now - old.timepoint))
          else none
        | none => none) := by
  unfold softIrqStep at h
  simp only [except_bind_eq_ok, except_pure_def] at h
  obtain ⟨cur, hp, h⟩ := h
  exact ⟨cur, hp, (Except.ok.inj h).symm⟩

theorem softIrqLoopAux (rows : List (List String)) (now : Rat) (name : String) :
    ∀ (fuel i : Nat) (hist : List (String × SoftIrq))
      (res : List (String × SoftIrq) × List SoftIrqMsg),
      softIrqLoop rows now fuel i hist = .ok res →
      (∀ c, histFind hist name = some c → c.timepoint = now) →
      ((∀ m ∈ res.2, m.cpu ≠ name) ∧
       (∀ c, histFind res.1 name = some c → c.timepoint = now) ∧
       (∀ k, (histFind hist k).isSome → (histFind res.1 k).isSome))
  | 0, i, hist, res, h, hinv => by
    unfold softIrqLoop at h
    cases Except.ok.inj h
    exact ⟨by simp, hinv, fun k hk => hk⟩
  | fuel + 1, i, hist, res, h, hinv => by
    unfold softIrqLoop at h
    simp only [except_bind_eq_ok, except_pure_def] at h
    obtain ⟨a, hp, b, hrest, hres⟩ := h
    have hres' := Except.ok.inj hres
    subst hres'
    obtain ⟨cur, hcol, rfl⟩ := softIrqStep_ok hp
    have tp : cur.timepoint = now := softIrqParseCol_ok hcol
    simp only at hrest
    have inv1 : ∀ c, histFind (histInsert hist cur.cpu_name cur) name = some c →
        c.timepoint = now := by
      by_cases hc : cur.cpu_name = name
      · intro c hcc
        rw [hc, histFind_insert_self] at hcc
        cases Option.some.inj hcc
        exact tp
      · intro c hcc
        rw [histFind_insert_ne hist cur.cpu_name name cur hc] at hcc
        exact hinv c hcc
    obtain ⟨ih1, ih2, ih3⟩ := softIrqLoopAux rows now name fuel (i + 1)
      (histInsert hist cur.cpu_name cur) b hrest inv1
    refine ⟨?_, ih2, ?_⟩
    · intro m hm
      simp only at hm
      rcases hfind : histFind hist cur.cpu_name with _ | old
      · rw [hfind] at hm
        exact ih1 m (by simpa [consOpt] using hm)
      · rw [hfind] at hm
        dsimp only at hm
        by_cases hpos : 0 < now - old.timepoint
        · rw [if_pos hpos] at hm
          simp only [consOpt, List.mem_cons] at hm
          rcases hm with rfl | hm
          · show (softIrqMkMsg cur old (now - old.timepoint)).cpu ≠ name
            intro hcn
            have hcn' : cur.cpu_name = name := hcn
            rw [hcn'] at hfind
            have h0 := hinv old hfind
            rw [h0] at hpos
            simp at hpos
          · exact ih1 m hm
        · rw [if_neg hpos] at hm
          exact ih1 m (by simpa [consOpt] using hm)
    · intro k hk
      exact ih3 k (histFind_insert_isSome hist k cur.cpu_name cur hk)

theorem softIrqUpdateAux {hist : List (String × SoftIrq)} {now : Rat}
    {rows : List (List String)} {res : List (String × SoftIrq) × List SoftIrqMsg}
    (h : softIrqUpdateOnce hist now rows = .ok res) (name : String)
    (hinv : ∀ c, histFind hist name = some c → c.timepoint = now) :
    ((∀ m ∈ res.2, m.cpu ≠ name) ∧
     (∀ c, histFind res.1 name = some c → c.timepoint = now) ∧
     (∀ k, (histFind hist k).isSome → (histFind res.1 k).isSome)) := by
  unfold softIrqUpdateOnce at h
  simp only [except_bind_eq_ok] at h
  obtain ⟨hd, h0, hloop⟩ := h
  exact softIrqLoopAux rows now name (sizetDec hd.length) 0 hist res hloop hinv

theorem vecGet_zero_headD {α : Type} (d : α) {xs : List α} {x : α}
    (h : vecGet xs 0 = .ok x) : xs.headD d = x := by
  cases xs with
  | nil => simp [vecGet] at h
  | cons y ys =>
    simp [vecGet] at h
    simpa using h

theorem cpuParseStat_name {toks : List String} {cur : CpuStat}
    (h : cpuParseStat toks = .ok cur) : cur.cpu_name = toks.headD "" := by
  unfold cpuParseStat at h
  simp only [except_bind_eq_ok, except_pure_def] at h
  obtain ⟨nm, h0, v1, h1, v2, h2, v3, h3, v4, h4, v5, h5, v6, h6, v7, h7, v8, h8,
         v9, h9, v10, h10, hfin⟩ := h
  cases Except.ok.inj hfin
  exact (vecGet_zero_headD "" h0).symm

theorem cpuProcessLine_ok {hist : List (String × CpuStat)} {toks : List String}
    {res : List (String × CpuStat) × Option CpuStatMsg}
    (h : cpuProcessLine hist toks = .ok res) :
    (∃ name0, vecGet toks 0 = .ok name0 ∧ strContainsSub name0 "cpu" = false ∧
      res = (hist, none)) ∨
    (∃ cur, cpuParseStat toks = .ok cur ∧
      strContainsSub (toks.headD "") "cpu" = true ∧
      res = (histInsert hist cur.cpu_name cur,
        match histFind hist cur.cpu_name with
        | some old =>
          some (if 0 < cpuTotal cur - cpuTotal old then cpuMkMsg cur old
                else defaultCpuStatMsg)
        | none => none)) := by
  unfold cpuProcessLine at h
  simp only [except_bind_eq_ok, except_pure_def] at h
  obtain ⟨name0, h0, h⟩ := h
  by_cases hc : strContainsSub name0 "cpu" = true
  · right
    rw [if_pos hc] at h
    simp only [except_bind_eq_ok, except_pure_def] at h
    obtain ⟨cur, hp, hfin⟩ := h
    refine ⟨cur, hp, ?_, (Except.ok.inj hfin).symm⟩
    rwa [vecGet_zero_headD "" h0]
  · left
    rw [if_neg hc] at h
    exact ⟨name0, h0, by simpa using hc, (Except.ok.inj h).symm⟩

theorem cpuMsgName {hist : List (String × CpuStat)} {toks : List String}
    {h1 : List (String × CpuStat)} {m : CpuStatMsg}
    (h : cpuProcessLine hist toks = .ok (h1, some m)) :
    m.cpu_name = "" ∨ m.cpu_name = toks.headD "" := by
  rcases cpuProcessLine_ok h with ⟨name0, _, _, heq⟩ | ⟨cur, hp, _, heq⟩
  · exact absurd (congrArg Prod.snd heq) (by simp)
  · have h2 := congrArg Prod.snd heq
    simp only at h2
    rcases hfind : histFind hist cur.cpu_name with _ | old
    · rw [hfind] at h2; exact absurd h2 (by simp)
    · rw [hfind] at h2
      dsimp only at h2
      have h3 := Option.some.inj h2
      by_cases hpos : 0 < cpuTotal cur - cpuTotal old
      · rw [if_pos hpos] at h3
        right
        subst h3
        simpa [cpuMkMsg] using cpuParseStat_name hp
      · rw [if_neg hpos] at h3
        left
        subst h3
        rfl

theorem cpuAux (name : String) (hne : name ≠ "") (lines : List (List String)) :
    ∀ (hist : List (String × CpuStat)) (res : List (String × CpuStat) × List CpuStatMsg),
      cpuUpdateOnce hist lines = .ok res →
      ((lines.countP (fun toks => toks.headD "" == name) = 0 →
          (∀ m ∈ res.2, m.cpu_name ≠ name) ∧ histFind res.1 name = histFind hist name) ∧
       (histFind hist name = none →
          lines.countP (fun toks => toks.headD "" == name) ≤ 1 →
          (∀ m ∈ res.2, m.cpu_name ≠ name)) ∧
       (∀ k, (histFind hist k).isSome → (histFind res.1 k).isSome)) := by
  induction lines with
  | nil =>
    intro hist res h
    unfold cpuUpdateOnce at h
    cases Except.ok.inj h
    exact ⟨fun _ => ⟨by simp, rfl⟩, fun _ _ => by simp, fun k hk => hk⟩
  | cons toks rest ih =>
    intro hist res h
    unfold cpuUpdateOnce at h
    simp only [except_bind_eq_ok, except_pure_def] at h
    obtain ⟨a, hp, b, hrest, hres⟩ := h
    have hres' := Except.ok.inj hres
    subst hres'
    rcases cpuProcessLine_ok hp with ⟨name0, h0, hnc, rfl⟩ | ⟨cur, hparse, hcis, rfl⟩
    · -- line skipped: first token does not contain "cpu"
      simp only at hrest
      obtain ⟨ih1, ih2, ih3⟩ := ih hist b hrest
      refine ⟨?_, ?_, ih3⟩
      · intro hcnt
        rw [List.countP_cons] at hcnt
        have hr0 : rest.countP (fun toks => toks.headD "" == name) = 0 := by
          by_cases hb : (toks.headD "" == name) = true
          · rw [if_pos hb] at hcnt; omega
          · rw [if_neg hb] at hcnt; omega
        obtain ⟨e1, e2⟩ := ih1 hr0
        exact ⟨by simpa [consOpt] using e1, e2⟩
      · intro hnone hcnt
        rw [List.countP_cons] at hcnt
        have hr1 : rest.countP (fun toks => toks.headD "" == name) ≤ 1 := by
          by_cases hb : (toks.headD "" == name) = true
          · rw [if_pos hb] at hcnt; omega
          · rw [if_neg hb] at hcnt; omega
        simpa [consOpt] using ih2 hnone hr1
    · -- line processed
      have hname : cur.cpu_name = toks.headD "" := cpuParseStat_name hparse
      simp only at hrest
      obtain ⟨ih1, ih2, ih3⟩ := ih (histInsert hist cur.cpu_name cur) b hrest
      have hmsgname : ∀ m, (match histFind hist cur.cpu_name with
          | some old =>
            some (if 0 < cpuTotal cur - cpuTotal old then cpuMkMsg cur old
                  else defaultCpuStatMsg)
          | none => none) = some m → m.cpu_name = "" ∨ m.cpu_name = toks.headD "" := by
        intro m hm
        rcases hfind : histFind hist cur.cpu_name with _ | old
        · rw [hfind] at hm; cases hm
        · rw [hfind] at hm
          dsimp only at hm
          have h3 := Option.some.inj hm
          by_cases hpos : 0 < cpuTotal cur - cpuTotal old
          · rw [if_pos hpos] at h3
            right; rw [← h3]
            simpa [cpuMkMsg] using hname
          · rw [if_neg hpos] at h3
            left; rw [← h3]; rfl
      refine ⟨?_, ?_, ?_⟩
      · intro hcnt
        rw [List.countP_cons] at hcnt
        by_cases hb : (toks.headD "" == name) = true
        · rw [if_pos hb] at hcnt; omega
        · rw [if_neg hb] at hcnt
          have hr0 : rest.countP (fun toks => toks.headD "" == name) = 0 := by omega
          have hhd : toks.headD "" ≠ name := by
            intro he
            exact hb (by rw [he]; exact beq_self_eq_true name)
          obtain ⟨e1, e2⟩ := ih1 hr0
          constructor
          · intro m hm
            simp only at hm
            rcases hEm : (match histFind hist cur.cpu_name with
                | some old =>
                  some (if 0 < cpuTotal cur - cpuTotal old then cpuMkMsg cur old
                        else defaultCpuStatMsg)
                | none => none) with _ | m0
            · rw [hEm] at hm
              exact e1 m (by simpa [consOpt] using hm)
            · rw [hEm] at hm
              simp only [consOpt, List.mem_cons] at hm
              rcases hm with rfl | hm
              · rcases hmsgname m hEm with hz | hz
                · rw [hz]; exact fun he => hne he.symm
                · rw [hz]; exact hhd
              · exact e1 m hm
          · rw [e2]
            exact histFind_insert_ne hist cur.cpu_name name cur (by rwa [hname])
      · intro hnone hcnt
        rw [List.countP_cons] at hcnt
        by_cases hb : (toks.headD "" == name) = true
        · -- this is the single line for `name`
          have hhd : toks.headD "" = name := eq_of_beq hb
          rw [if_pos hb] at hcnt
          have hr0 : rest.countP (fun toks => toks.headD "" == name) = 0 := by omega
          have hEnone : (match histFind hist cur.cpu_name with
              | some old =>
                some (if 0 < cpuTotal cur - cpuTotal old then cpuMkMsg cur old
                      else defaultCpuStatMsg)
              | none => none) = none := by
            rw [hname, hhd, hnone]
          obtain ⟨e1, _⟩ := ih1 hr0
          intro m hm
          simp only [hEnone] at hm
          exact e1 m (by simpa [consOpt] using hm)
        · have hhd : toks.headD "" ≠ name := by
            intro he
            exact hb (by rw [he]; exact beq_self_eq_true name)
          have hnone1 : histFind (histInsert hist cur.cpu_name cur) name = none := by
            rw [histFind_insert_ne hist cur.cpu_name name cur (by rwa [hname]), hnone]
          rw [if_neg hb] at hcnt
          have hr1 : rest.countP (fun toks => toks.headD "" == name) ≤ 1 := by omega
          intro m hm
          simp only at hm
          rcases hEm : (match histFind hist cur.cpu_name with
              | some old =>
                some (if 0 < cpuTotal cur - cpuTotal old then cpuMkMsg cur old
                      else defaultCpuStatMsg)
              | none => none) with _ | m0
          · rw [hEm] at hm
            exact ih2 hnone1 hr1 m (by simpa [consOpt] using hm)
          · rw [hEm] at hm
            simp only [consOpt, List.mem_cons] at hm
            rcases hm with rfl | hm
            · rcases hmsgname m hEm with hz | hz
              · rw [hz]; exact fun he => hne he.symm
              · rw [hz]; exact hhd
            · exact ih2 hnone1 hr1 m hm
      · intro k hk
        exact ih3 k (histFind_insert_isSome hist k cur.cpu_name cur hk)

theorem netProcessLine_updates {hist : List (String × NetInfo)} {now : Rat}
    {toks : List String} {res : List (String × NetInfo) × Option NetRateMsg}
    {cur : NetInfo} (h : netProcessLine hist now toks = .ok res)
    (hp : netParseLine now toks = .ok (some cur)) :
    histFind res.1 cur.name = some cur := by
  rcases netProcessLine_ok h with ⟨hn, rfl⟩ | ⟨cur', hs, rfl⟩
  · have := hp.symm.trans hn
    cases Except.ok.inj this
  · have := Option.some.inj (Except.ok.inj (hp.symm.trans hs))
    subst this
    simpa using histFind_insert_self hist cur.name cur

theorem softIrqStep_updates {rows : List (List String)} {now : Rat}
    {hist : List (String × SoftIrq)} {i : Nat}
    {res : List (String × SoftIrq) × Option SoftIrqMsg} {cur : SoftIrq}
    (h : softIrqStep rows now hist i = .ok res)
    (hp : softIrqParseCol rows now i = .ok cur) :
    histFind res.1 cur.cpu_name = some cur := by
  obtain ⟨cur', hs, rfl⟩ := softIrqStep_ok h
  have := Except.ok.inj (hp.symm.trans hs)
  subst this
  simpa using histFind_insert_self hist cur.cpu_name cur

theorem cpuProcessLine_updates {hist : List (String × CpuStat)} {toks : List String}
    {res : List (String × CpuStat) × Option CpuStatMsg} {cur : CpuStat}
    (h : cpuProcessLine hist toks = .ok res)
    (hcis : strContainsSub (toks.headD "") "cpu" = true)
    (hp : cpuParseStat toks = .ok cur) :
    histFind res.1 cur.cpu_name = some cur := by
  rcases cpuProcessLine_ok h with ⟨name0, h0, hnc, rfl⟩ | ⟨cur', hs, _, rfl⟩
  · rw [vecGet_zero_headD "" h0] at hcis
    rw [hcis] at hnc
    cases hnc
  · have := Except.ok.inj (hp.symm.trans hs)
    subst this
    simpa using histFind_insert_self hist cur.cpu_name cur

/-- Claim C1 (first-observation suppression with unconditional history
update): for the network, softirq and CPU-time samplers, an entity with no
entry in the sampler's history when `UpdateOnce` runs gets no emitted
record in that call's snapshot contribution, yet processing the record
that observes the entity upserts the history with the newly observed raw
sample unconditionally, so any post-call history entry for such an entity
carries this call's capture instant.  For the CPU-time sampler — which has
no timestamps and guards only on the jiffy delta — the no-emission part is
stated for entities with at most one line in the source, which is the
shape of `/proc/stat`. -/
theorem claim_C1_first_observation_suppression :
    (∀ (hist : List (String × NetInfo)) (now : Rat) (lines : List (List String))
       (res : List (String × NetInfo) × List NetRateMsg) (name : String),
       netUpdateOnce hist now lines = .ok res →
       histFind hist name = none →
       (∀ m ∈ res.2, m.name ≠ name) ∧
       (∀ c, histFind res.1 name = some c → c.timepoint = now)) ∧
    (∀ (hist : List (String × NetInfo)) (now : Rat) (toks : List String)
       (res : List (String × NetInfo) × Option NetRateMsg) (cur : NetInfo),
       netProcessLine hist now toks = .ok res →
       netParseLine now toks = .ok (some cur) →
       histFind res.1 cur.name = some cur) ∧
    (∀ (hist : List (String × SoftIrq)) (now : Rat) (rows : List (List String))
       (res : List (String × SoftIrq) × List SoftIrqMsg) (name : String),
       softIrqUpdateOnce hist now rows = .ok res →
       histFind hist name = none →
       (∀ m ∈ res.2, m.cpu ≠ name) ∧
       (∀ c, histFind res.1 name = some c → c.timepoint = now)) ∧
    (∀ (rows : List (List String)) (now : Rat) (hist : List (String × SoftIrq))
       (i : Nat) (res : List (String × SoftIrq) × Option SoftIrqMsg) (cur : SoftIrq),
       softIrqStep rows now hist i = .ok res →
       softIrqParseCol rows now i = .ok cur →
       histFind res.1 cur.cpu_name = some cur) ∧
    (∀ (hist : List (String × CpuStat)) (lines : List (List String))
       (res : List (String × CpuStat) × List CpuStatMsg) (name : String),
       cpuUpdateOnce hist lines = .ok res →
       name ≠ "" →
       histFind hist name = none →
       lines.countP (fun toks => toks.headD "" == name) ≤ 1 →
       (∀ m ∈ res.2, m.cpu_name ≠ name)) ∧
    (∀ (hist : List (String × CpuStat)) (toks : List String)
       (res : List (String × CpuStat) × Option CpuStatMsg) (cur : CpuStat),
       cpuProcessLine hist toks = .ok res →
       strContainsSub (toks.headD "") "cpu" = true →
       cpuParseStat toks = .ok cur →
       histFind res.1 cur.cpu_name = some cur) := by
  refine ⟨?_, ?_, ?_, ?_, ?_, ?_⟩
  · intro hist now lines res name h hnone
    have hinv : ∀ c, histFind hist name = some c → c.timepoint = now := by
      intro c hc; rw [hnone] at hc; cases hc
    obtain ⟨h1, h2, _⟩ := netAux now name lines hist res h hinv
    exact ⟨h1, h2⟩
  · intro hist now toks res cur h hp
    exact netProcessLine_updates h hp
  · intro hist now rows res name h hnone
    have hinv : ∀ c, histFind hist name = some c → c.timepoint = now := by
      intro c hc; rw [hnone] at hc; cases hc
    obtain ⟨h1, h2, _⟩ := softIrqUpdateAux h name hinv
    exact ⟨h1, h2⟩
  · intro rows now hist i res cur h hp
    exact softIrqStep_updates h hp
  · intro hist lines res name h hne hnone hcnt
    exact (cpuAux name hne lines hist res h).2.1 hnone hcnt
  · intro hist toks res cur h hcis hp
    exact cpuProcessLine_updates h hcis hp

/-- Witness for C1: concrete first observations of `eth0`, `CPU0` and
`cpu` from empty histories — no message emitted, history populated with
the observed raw sample. -/
theorem claim_C1_first_observation_suppression_witness :
    (netUpdateOnce [] 0 [netSampleLine] = .ok netC1Res ∧
     histFind ([] : List (String × NetInfo)) "eth0" = none ∧
     (∀ m ∈ netC1Res.2, m.name ≠ "eth0") ∧
     (∀ c, histFind netC1Res.1 "eth0" = some c → c.timepoint = 0)) ∧
    (netProcessLine [] 0 netSampleLine = .ok (netC1Res.1, none) ∧
     netParseLine 0 netSampleLine = .ok (some netSampleInfo) ∧
     histFind netC1Res.1 netSampleInfo.name = some netSampleInfo) ∧
    (softIrqUpdateOnce [] 0 softirqTwoCpuRows = .ok ([("CPU0", softTwoCpuInfo)], []) ∧
     (∀ m ∈ ([] : List SoftIrqMsg), m.cpu ≠ "CPU0") ∧
     histFind [("CPU0", softTwoCpuInfo)] softTwoCpuInfo.cpu_name = some softTwoCpuInfo) ∧
    (cpuUpdateOnce [] [cpuLineOne] = .ok ([("cpu", cpuStatOne)], []) ∧
     (∀ m ∈ ([] : List CpuStatMsg), m.cpu_name ≠ "cpu") ∧
     histFind [("cpu", cpuStatOne)] cpuStatOne.cpu_name = some cpuStatOne) := by
  refine ⟨⟨by decide, by decide, ?_, ?_⟩, ⟨by decide, by decide, ?_⟩, ⟨by decide, ?_, ?_⟩,
         ⟨by decide, ?_, ?_⟩⟩
  · exact (claim_C1_first_observation_suppression.1 [] 0 [netSampleLine] netC1Res "eth0"
      (by decide) (by decide)).1
  · exact (claim_C1_first_observation_suppression.1 [] 0 [netSampleLine] netC1Res "eth0"
      (by decide) (by decide)).2
  · exact claim_C1_first_observation_suppression.2.1 [] 0 netSampleLine (netC1Res.1, none)
      netSampleInfo (by decide) (by decide)
  · exact (claim_C1_first_observation_suppression.2.2.1 [] 0 softirqTwoCpuRows
      ([("CPU0", softTwoCpuInfo)], []) "CPU0" (by decide) (by decide)).1
  · exact claim_C1_first_observation_suppression.2.2.2.1 softirqTwoCpuRows 0 [] 0
      ([("CPU0", softTwoCpuInfo)], none) softTwoCpuInfo (by decide) (by decide)
  · exact claim_C1_first_observation_suppression.2.2.2.2.1 [] [cpuLineOne]
      ([("cpu", cpuStatOne)], []) "cpu" (by decide) (by decide) (by decide) (by decide)
  · exact claim_C1_first_observation_suppression.2.2.2.2.2 [] cpuLineOne
      ([("cpu", cpuStatOne)], none) cpuStatOne (by decide) (by decide) (by decide)

/-- Counterexample to C2 as stated: the aggregate `cpu` entity has a
previous sample and the total jiffy delta is 0 (not positive), yet the
CPU-time sampler still appends a record to the snapshot — the
default-initialised protobuf entry `add_cpu_stat()` created before the
`total_time_diff > 0` guard ran — instead of omitting the entity. -/
theorem claim_C2_counterexample :
    cpuTotal cpuStatOne - cpuTotal cpuStatOne ≤ 0 ∧
    cpuUpdateOnce [("cpu", cpuStatOne)] [cpuLineOne] =
      .ok ([("cpu", cpuStatOne)], [defaultCpuStatMsg]) := by
  constructor
  · decide
  · decide

/-- Claim C2 as amended: for every entity with a previous sample whose
elapsed time (total jiffy delta for CPU-time) is zero or negative, the
network and softirq samplers omit the entity entirely and still update
its history; the CPU-time sampler performs no division either but appends
a default-initialised record (empty name, zero fields) to the snapshot.
In all three samplers a filled message is emitted only when the divisor
is strictly positive, so the division branch is unreachable otherwise. -/
theorem claim_C2_elapsed_time_guard :
    (∀ (hist : List (String × NetInfo)) (now : Rat) (toks : List String)
       (res : List (String × NetInfo) × Option NetRateMsg) (cur old : NetInfo),
       netProcessLine hist now toks = .ok res →
       netParseLine now toks = .ok (some cur) →
       histFind hist cur.name = some old →
       now - old.timepoint ≤ 0 →
       res = (histInsert hist cur.name cur, none)) ∧
    (∀ (rows : List (List String)) (now : Rat) (hist : List (String × SoftIrq))
       (i : Nat) (res : List (String × SoftIrq) × Option SoftIrqMsg) (cur old : SoftIrq),
       softIrqStep rows now hist i = .ok res →
       softIrqParseCol rows now i = .ok cur →
       histFind hist cur.cpu_name = some old →
       now - old.timepoint ≤ 0 →
       res = (histInsert hist cur.cpu_name cur, none)) ∧
    (∀ (hist : List (String × CpuStat)) (toks : List String)
       (res : List (String × CpuStat) × Option CpuStatMsg) (cur old : CpuStat),
       cpuProcessLine hist toks = .ok res →
       cpuParseStat toks = .ok cur →
       histFind hist cur.cpu_name = some old →
       cpuTotal cur - cpuTotal old ≤ 0 →
       strContainsSub (toks.headD "") "cpu" = true →
       res = (histInsert hist cur.cpu_name cur, some defaultCpuStatMsg)) ∧
    (∀ (hist : List (String × NetInfo)) (now : Rat) (toks : List String)
       (res : List (String × NetInfo) × Option NetRateMsg) (m : NetRateMsg),
       netProcessLine hist now toks = .ok res →
       res.2 = some m →
       ∃ cur old, netParseLine now toks = .ok (some cur) ∧
         histFind hist cur.name = some old ∧ 0 < now - old.timepoint ∧
         m = netMkMsg cur old (now - old.timepoint)) ∧
    (∀ (rows : List (List String)) (now : Rat) (hist : List (String × SoftIrq))
       (i : Nat) (res : List (String × SoftIrq) × Option SoftIrqMsg) (m : SoftIrqMsg),
       softIrqStep rows now hist i = .ok res →
       res.2 = some m →
       ∃ cur old, softIrqParseCol rows now i = .ok cur ∧
         histFind hist cur.cpu_name = some old ∧ 0 < now - old.timepoint ∧
         m = softIrqMkMsg cur old (now - old.timepoint)) ∧
    (∀ (hist : List (String × CpuStat)) (toks : List String)
       (res : List (String × CpuStat) × Option CpuStatMsg) (m : CpuStatMsg),
       cpuProcessLine hist toks = .ok res →
       res.2 = some m →
       m ≠ defaultCpuStatMsg →
       ∃ cur old, cpuParseStat toks = .ok cur ∧
         histFind hist cur.cpu_name = some old ∧ 0 < cpuTotal cur - cpuTotal old ∧
         m = cpuMkMsg cur old) := by
  refine ⟨?_, ?_, ?_, ?_, ?_, ?_⟩
  · intro hist now toks res cur old h hp hfind hle
    rcases netProcessLine_ok h with ⟨hn, rfl⟩ | ⟨cur', hs, rfl⟩
    · cases Except.ok.inj (hp.symm.trans hn)
    · have := Option.some.inj (Except.ok.inj (hp.symm.trans hs))
      subst this
      rw [hfind]
      dsimp only
      rw [if_neg (not_lt.mpr hle)]
  · intro rows now hist i res cur old h hp hfind hle
    obtain ⟨cur', hs, rfl⟩ := softIrqStep_ok h
    have := Except.ok.inj (hp.symm.trans hs)
    subst this
    rw [hfind]
    dsimp only
    rw [if_neg (not_lt.mpr hle)]
  · intro hist toks res cur old h hp hfind hle hcis
    rcases cpuProcessLine_ok h with ⟨name0, h0, hnc, rfl⟩ | ⟨cur', hs, _, rfl⟩
    · rw [vecGet_zero_headD "" h0] at hcis
      rw [hcis] at hnc
      cases hnc
    · have := Except.ok.inj (hp.symm.trans hs)
      subst this
      rw [hfind]
      dsimp only
      rw [if_neg (not_lt.mpr hle)]
  · intro hist now toks res m h hm
    rcases netProcessLine_ok h with ⟨hn, rfl⟩ | ⟨cur, hs, rfl⟩
    · simp at hm
    · simp only at hm
      rcases hfind : histFind hist cur.name with _ | old
      · rw [hfind] at hm; cases hm
      · rw [hfind] at hm
        dsimp only at hm
        by_cases hpos : 0 < now - old.timepoint
        · rw [if_pos hpos] at hm
          exact ⟨cur, old, hs, hfind, hpos, (Option.some.inj hm).symm⟩
        · rw [if_neg hpos] at hm; cases hm
  · intro rows now hist i res m h hm
    obtain ⟨cur, hs, rfl⟩ := softIrqStep_ok h
    simp only at hm
    rcases hfind : histFind hist cur.cpu_name with _ | old
    · rw [hfind] at hm; cases hm
    · rw [hfind] at hm
      dsimp only at hm
      by_cases hpos : 0 < now - old.timepoint
      · rw [if_pos hpos] at hm
        exact ⟨cur, old, hs, hfind, hpos, (Option.some.inj hm).symm⟩
      · rw [if_neg hpos] at hm; cases hm
  · intro hist toks res m h hm hnd
    rcases cpuProcessLine_ok h with ⟨name0, h0, hnc, rfl⟩ | ⟨cur, hs, hcis, rfl⟩
    · simp at hm
    · simp only at hm
      rcases hfind : histFind hist cur.cpu_name with _ | old
      · rw [hfind] at hm; cases hm
      · rw [hfind] at hm
        dsimp only at hm
        have h3 := Option.some.inj hm
        by_cases hpos : 0 < cpuTotal cur - cpuTotal old
        · rw [if_pos hpos] at h3
          exact ⟨cur, old, hs, hfind, hpos, h3.symm⟩
        · rw [if_neg hpos] at h3
          exact absurd h3.symm hnd

/-- Witness for the amended C2: concrete repeated samples with zero
elapsed time (and zero jiffy delta) for each sampler, plus concrete
positive-delta emissions showing the divisor is positive whenever a
filled message appears. -/
theorem claim_C2_elapsed_time_guard_witness :
    ((5 : Rat) - netCur2Info.timepoint ≤ 0 ∧
     netProcessLine [("eth0", netCur2Info)] 5 netLine2 = .ok ([("eth0", netCur2Info)], none) ∧
     ([("eth0", netCur2Info)], (none : Option NetRateMsg)) =
       (histInsert [("eth0", netCur2Info)] netCur2Info.name netCur2Info, none)) ∧
    ((5 : Rat) - softCurInfo.timepoint ≤ 0 ∧
     softIrqStep softirqRatesRows 5 [("CPU0", softCurInfo)] 0 =
       .ok ([("CPU0", softCurInfo)], none) ∧
     ([("CPU0", softCurInfo)], (none : Option SoftIrqMsg)) =
       (histInsert [("CPU0", softCurInfo)] softCurInfo.cpu_name softCurInfo, none)) ∧
    (cpuTotal cpuStatOne - cpuTotal cpuStatOne ≤ 0 ∧
     cpuProcessLine [("cpu", cpuStatOne)] cpuLineOne =
       .ok ([("cpu", cpuStatOne)], some defaultCpuStatMsg) ∧
     ([("cpu", cpuStatOne)], some defaultCpuStatMsg) =
       (histInsert [("cpu", cpuStatOne)] cpuStatOne.cpu_name cpuStatOne,
        some defaultCpuStatMsg)) ∧
    (∃ cur old, netParseLine 5 netLine2 = .ok (some cur) ∧
       histFind [("eth0", netOldInfo)] cur.name = some old ∧
       0 < (5 : Rat) - old.timepoint ∧
       netMkMsg netCur2Info netOldInfo 5 = netMkMsg cur old (5 - old.timepoint)) ∧
    (∃ cur old, softIrqParseCol softirqRatesRows 5 0 = .ok cur ∧
       histFind [("CPU0", softOldInfo)] cur.cpu_name = some old ∧
       0 < (5 : Rat) - old.timepoint ∧
       softIrqMkMsg softCurInfo softOldInfo 5 = softIrqMkMsg cur old (5 - old.timepoint)) ∧
    (∃ cur old, cpuParseStat cpuLineTwo = .ok cur ∧
       histFind [("cpu", cpuStatOne)] cur.cpu_name = some old ∧
       0 < cpuTotal cur - cpuTotal old ∧
       cpuMkMsg cpuStatTwo cpuStatOne = cpuMkMsg cur old) := by
  refine ⟨⟨by decide, by decide, ?_⟩, ⟨by decide, by decide, ?_⟩, ⟨by decide, by decide, ?_⟩,
         ?_, ?_, ?_⟩
  · exact claim_C2_elapsed_time_guard.1 [("eth0", netCur2Info)] 5 netLine2
      ([("eth0", netCur2Info)], none) netCur2Info netCur2Info
      (by decide) (by decide) (by decide) (by decide)
  · exact claim_C2_elapsed_time_guard.2.1 softirqRatesRows 5 [("CPU0", softCurInfo)] 0
      ([("CPU0", softCurInfo)], none) softCurInfo softCurInfo
      (by decide) (by decide) (by decide) (by decide)
  · exact claim_C2_elapsed_time_guard.2.2.1 [("cpu", cpuStatOne)] cpuLineOne
      ([("cpu", cpuStatOne)], some defaultCpuStatMsg) cpuStatOne cpuStatOne
      (by decide) (by decide) (by decide) (by decide) (by decide)
  · exact claim_C2_elapsed_time_guard.2.2.2.1 [("eth0", netOldInfo)] 5 netLine2
      ([("eth0", netCur2Info)], some (netMkMsg netCur2Info netOldInfo 5))
      (netMkMsg netCur2Info netOldInfo 5) (by decide) (by decide)
  · exact claim_C2_elapsed_time_guard.2.2.2.2.1 softirqRatesRows 5 [("CPU0", softOldInfo)] 0
      ([("CPU0", softCurInfo)], some (softIrqMkMsg softCurInfo softOldInfo 5))
      (softIrqMkMsg softCurInfo softOldInfo 5) (by decide) (by decide)
  · exact claim_C2_elapsed_time_guard.2.2.2.2.2 [("cpu", cpuStatOne)] cpuLineTwo
      ([("cpu", cpuStatTwo)], some (cpuMkMsg cpuStatTwo cpuStatOne))
      (cpuMkMsg cpuStatTwo cpuStatOne) (by decide) (by decide) (by decide)

/-- Claim C3 (rate correctness): when a previous sample exists and the
elapsed time is positive, the network and softirq samplers emit exactly
the message whose every rate is (current counter − previous counter)
divided by the elapsed seconds, with the two network byte rates further
divided by 1024 to give KB/s. -/
theorem claim_C3_rate_correctness :
    (∀ (hist : List (String × NetInfo)) (now : Rat) (toks : List String)
       (res : List (String × NetInfo) × Option NetRateMsg) (cur old : NetInfo),
       netProcessLine hist now toks = .ok res →
       netParseLine now toks = .ok (some cur) →
       histFind hist cur.name = some old →
       0 < now - old.timepoint →
       res.2 = some (netMkMsg cur old (now - old.timepoint))) ∧
    (∀ (cur old : NetInfo) (p : Rat),
       (netMkMsg cur old p).send_packets_rate =
         ((cur.snd_packets - old.snd_packets : Int) : Rat) / p ∧
       (netMkMsg cur old p).rcv_packets_rate =
         ((cur.rcv_packets - old.rcv_packets : Int) : Rat) / p ∧
       (netMkMsg cur old p).send_rate =
         ((cur.snd_bytes - old.snd_bytes : Int) : Rat) / p / 1024 ∧
       (netMkMsg cur old p).rcv_rate =
         ((cur.rcv_bytes - old.rcv_bytes : Int) : Rat) / p / 1024) ∧
    (∀ (rows : List (List String)) (now : Rat) (hist : List (String × SoftIrq))
       (i : Nat) (res : List (String × SoftIrq) × Option SoftIrqMsg) (cur old : SoftIrq),
       softIrqStep rows now hist i = .ok res →
       softIrqParseCol rows now i = .ok cur →
       histFind hist cur.cpu_name = some old →
       0 < now - old.timepoint →
       res.2 = some (softIrqMkMsg cur old (now - old.timepoint))) ∧
    (∀ (cur old : SoftIrq) (p : Rat),
       (softIrqMkMsg cur old p).hi = ((cur.hi - old.hi : Int) : Rat) / p ∧
       (softIrqMkMsg cur old p).timer = ((cur.timer - old.timer : Int) : Rat) / p ∧
       (softIrqMkMsg cur old p).net_tx = ((cur.net_tx - old.net_tx : Int) : Rat) / p ∧
       (softIrqMkMsg cur old p).net_rx = ((cur.net_rx - old.net_rx : Int) : Rat) / p ∧
       (softIrqMkMsg cur old p).block = ((cur.block - old.block : Int) : Rat) / p ∧
       (softIrqMkMsg cur old p).irq_poll = ((cur.irq_poll - old.irq_poll : Int) : Rat) / p ∧
       (softIrqMkMsg cur old p).tasklet = ((cur.tasklet - old.tasklet : Int) : Rat) / p ∧
       (softIrqMkMsg cur old p).sched = ((cur.sched - old.sched : Int) : Rat) / p ∧
       (softIrqMkMsg cur old p).hrtimer = ((cur.hrtimer - old.hrtimer : Int) : Rat) / p ∧
       (softIrqMkMsg cur old p).rcu = ((cur.rcu - old.rcu : Int) : Rat) / p) := by
  refine ⟨?_, ?_, ?_, ?_⟩
  · intro hist now toks res cur old h hp hfind hpos
    rcases netProcessLine_ok h with ⟨hn, rfl⟩ | ⟨cur', hs, rfl⟩
    · cases Except.ok.inj (hp.symm.trans hn)
    · have := Option.some.inj (Except.ok.inj (hp.symm.trans hs))
      subst this
      simp only
      rw [hfind]
      dsimp only
      rw [if_pos hpos]
  · intro cur old p
    refine ⟨rfl, rfl, ?_, ?_⟩
    · show ((cur.snd_bytes - old.snd_bytes : Int) : Rat) / 1024 / p =
        ((cur.snd_bytes - old.snd_bytes : Int) : Rat) / p / 1024
      rw [div_div, div_div, mul_comm]
    · show ((cur.rcv_bytes - old.rcv_bytes : Int) : Rat) / 1024 / p =
        ((cur.rcv_bytes - old.rcv_bytes : Int) : Rat) / p / 1024
      rw [div_div, div_div, mul_comm]
  · intro rows now hist i res cur old h hp hfind hpos
    obtain ⟨cur', hs, rfl⟩ := softIrqStep_ok h
    have := Except.ok.inj (hp.symm.trans hs)
    subst this
    simp only
    rw [hfind]
    dsimp only
    rw [if_pos hpos]
  · intro cur old p
    exact ⟨rfl, rfl, rfl, rfl, rfl, rfl, rfl, rfl, rfl, rfl⟩

/-- Witness for C3: the spec's example — a counter at 100 and then 1100
five seconds later yields a rate of 200 units/sec — realised by the
softirq TIMER counter and the network transmit packet counter, plus a
byte-rate KB/s conversion check. -/
theorem claim_C3_rate_correctness_witness :
    (netProcessLine [("eth0", netOldInfo)] 5 netLine2 =
       .ok ([("eth0", netCur2Info)], some (netMkMsg netCur2Info netOldInfo 5)) ∧
     ([("eth0", netCur2Info)], some (netMkMsg netCur2Info netOldInfo 5)).2 =
       some (netMkMsg netCur2Info netOldInfo (5 - netOldInfo.timepoint)) ∧
     netOldInfo.snd_packets = 100 ∧ netCur2Info.snd_packets = 1100 ∧
     (netMkMsg netCur2Info netOldInfo 5).send_packets_rate = 200 ∧
     (netMkMsg netCur2Info netOldInfo 5).send_rate = 1) ∧
    (softIrqStep softirqRatesRows 5 [("CPU0", softOldInfo)] 0 =
       .ok ([("CPU0", softCurInfo)], some (softIrqMkMsg softCurInfo softOldInfo 5)) ∧
     ([("CPU0", softCurInfo)], some (softIrqMkMsg softCurInfo softOldInfo 5)).2 =
       some (softIrqMkMsg softCurInfo softOldInfo (5 - softOldInfo.timepoint)) ∧
     softOldInfo.timer = 100 ∧ softCurInfo.timer = 1100 ∧
     (softIrqMkMsg softCurInfo softOldInfo 5).timer = 200) := by
  refine ⟨⟨by decide, ?_, by decide, by decide, by decide, by decide⟩,
         ⟨by decide, ?_, by decide, by decide, by decide⟩⟩
  · exact claim_C3_rate_correctness.1 [("eth0", netOldInfo)] 5 netLine2
      ([("eth0", netCur2Info)], some (netMkMsg netCur2Info netOldInfo 5))
      netCur2Info netOldInfo (by decide) (by decide) (by decide) (by decide)
  · exact claim_C3_rate_correctness.2.2.1 softirqRatesRows 5 [("CPU0", softOldInfo)] 0
      ([("CPU0", softCurInfo)], some (softIrqMkMsg softCurInfo softOldInfo 5))
      softCurInfo softOldInfo (by decide) (by decide) (by decide) (by decide)

/-- Claim C4 (CPU percentage partition): each percentage the CPU-time
sampler fills equals the component delta over the total delta times 100,
where the total delta equals the sum of the deltas of exactly the 8
components user, nice, system, idle, io_wait, irq, soft_irq, steal —
guest and guest_nice are excluded (changing them changes nothing) — and a
filled message is emitted exactly from a previous sample with positive
total delta. -/
theorem claim_C4_percentage_partition :
    (∀ cur old : CpuStat,
       cpuTotal cur - cpuTotal old =
         (cur.user - old.user) + (cur.nice - old.nice) + (cur.system - old.system) +
         (cur.idle - old.idle) + (cur.io_wait - old.io_wait) + (cur.irq - old.irq) +
         (cur.soft_irq - old.soft_irq) + (cur.steal - old.steal) ∧
       (cpuMkMsg cur old).usr_percent =
         (cur.user - old.user) / (cpuTotal cur - cpuTotal old) * 100 ∧
       (cpuMkMsg cur old).system_percent =
         (cur.system - old.system) / (cpuTotal cur - cpuTotal old) * 100 ∧
       (cpuMkMsg cur old).nice_percent =
         (cur.nice - old.nice) / (cpuTotal cur - cpuTotal old) * 100 ∧
       (cpuMkMsg cur old).idle_percent =
         (cur.idle - old.idle) / (cpuTotal cur - cpuTotal old) * 100 ∧
       (cpuMkMsg cur old).io_wait_percent =
         (cur.io_wait - old.io_wait) / (cpuTotal cur - cpuTotal old) * 100 ∧
       (cpuMkMsg cur old).irq_percent =
         (cur.irq - old.irq) / (cpuTotal cur - cpuTotal old) * 100 ∧
       (cpuMkMsg cur old).soft_irq_percent =
         (cur.soft_irq - old.soft_irq) / (cpuTotal cur - cpuTotal old) * 100 ∧
       (cpuMkMsg cur old).cpu_percent =
         (cpuBusy cur - cpuBusy old) / (cpuTotal cur - cpuTotal old) * 100) ∧
    (∀ (cur old : CpuStat) (g gn g' gn' : Rat),
       cpuMkMsg { cur with guest := g, guest_nice := gn }
         { old with guest := g', guest_nice := gn' } = cpuMkMsg cur old) ∧
    (∀ (hist : List (String × CpuStat)) (toks : List String)
       (h1 : List (String × CpuStat)) (m : CpuStatMsg),
       cpuProcessLine hist toks = .ok (h1, some m) →
       m ≠ defaultCpuStatMsg →
       ∃ cur old, cpuParseStat toks = .ok cur ∧
         histFind hist cur.cpu_name = some old ∧
         0 < cpuTotal cur - cpuTotal old ∧ m = cpuMkMsg cur old) := by
  refine ⟨?_, ?_, ?_⟩
  · intro cur old
    refine ⟨?_, rfl, rfl, rfl, rfl, rfl, rfl, rfl, rfl⟩
    unfold cpuTotal
    ring
  · intro cur old g gn g' gn'
    rfl
  · intro hist toks h1 m h hnd
    rcases cpuProcessLine_ok h with ⟨name0, h0, hnc, heq⟩ | ⟨cur, hs, hcis, heq⟩
    · exact absurd (congrArg Prod.snd heq) (by simp)
    · have h2 := congrArg Prod.snd heq
      simp only at h2
      rcases hfind : histFind hist cur.cpu_name with _ | old
      · rw [hfind] at h2; cases h2
      · rw [hfind] at h2
        dsimp only at h2
        have h3 := Option.some.inj h2
        by_cases hpos : 0 < cpuTotal cur - cpuTotal old
        · rw [if_pos hpos] at h3
          exact ⟨cur, old, hs, hfind, hpos, h3⟩
        · rw [if_neg hpos] at h3
          exact absurd h3 hnd

/-- Witness for C4: the spec's example — a total delta of 1000 jiffies
with a user delta of 300 yields a user percentage of 30 — plus a concrete
filled emission. -/
theorem claim_C4_percentage_partition_witness :
    (cpuTotal cpuStatThousand - cpuTotal cpuStatZero = 1000 ∧
     cpuStatThousand.user - cpuStatZero.user = 300 ∧
     (cpuMkMsg cpuStatThousand cpuStatZero).usr_percent =
       (cpuStatThousand.user - cpuStatZero.user) /
         (cpuTotal cpuStatThousand - cpuTotal cpuStatZero) * 100 ∧
     (cpuMkMsg cpuStatThousand cpuStatZero).usr_percent = 30) ∧
    (cpuProcessLine [("cpu", cpuStatOne)] cpuLineTwo =
       .ok ([("cpu", cpuStatTwo)], some (cpuMkMsg cpuStatTwo cpuStatOne)) ∧
     cpuMkMsg cpuStatTwo cpuStatOne ≠ defaultCpuStatMsg ∧
     (∃ cur old, cpuParseStat cpuLineTwo = .ok cur ∧
        histFind [("cpu", cpuStatOne)] cur.cpu_name = some old ∧
        0 < cpuTotal cur - cpuTotal old ∧
        cpuMkMsg cpuStatTwo cpuStatOne = cpuMkMsg cur old)) := by
  refine ⟨⟨by decide, by decide, ?_, by decide⟩, ⟨by decide, by decide, ?_⟩⟩
  · exact (claim_C4_percentage_partition.1 cpuStatThousand cpuStatZero).2.1
  · exact claim_C4_percentage_partition.2.2 [("cpu", cpuStatOne)] cpuLineTwo
      [("cpu", cpuStatTwo)] (cpuMkMsg cpuStatTwo cpuStatOne) (by decide) (by decide)

theorem cacheRun_append {α : Type} (d : α) (l1 l2 : List (CacheOp α)) :
    cacheRun d (l1 ++ l2) =
      ((cacheRun (cacheRun d l1).1 l2).1,
       (cacheRun d l1).2 ++ (cacheRun (cacheRun d l1).1 l2).2) := by
  induction l1 generalizing d with
  | nil => simp [cacheRun]
  | cons op l1 ih =>
    cases op with
    | setOp s => simp [cacheRun, cacheStep, consOpt, ih]
    | getOp => simp [cacheRun, cacheStep, consOpt, ih]

theorem cacheRun_fst {α : Type} (d : α) (ops : List (CacheOp α)) :
    (cacheRun d ops).1 = lastSetVal d ops := by
  induction ops generalizing d with
  | nil => rfl
  | cons op ops ih =>
    cases op with
    | setOp s => simp [cacheRun, cacheStep, lastSetVal, ih]
    | getOp => simp [cacheRun, cacheStep, lastSetVal, ih]

theorem cacheRun_gets {α : Type} (d : α) (n : Nat) :
    cacheRun d (List.replicate n CacheOp.getOp) = (d, List.replicate n d) := by
  induction n with
  | zero => rfl
  | succ n ih => simp [List.replicate, cacheRun, cacheStep, consOpt, ih]

/-- Claim C5 (distribution cache last-write-wins): `SetMonitorInfo`
replaces the held snapshot unconditionally regardless of the prior value,
`GetMonitorInfo` returns exactly the held snapshot, the held value after
any operation sequence is the last value set (or the default-constructed
snapshot when none was ever set), every `get` after `set A; set B` with no
intervening `set` returns exactly `B`, and every `get` before any `set`
returns the default snapshot. -/
theorem claim_C5_cache_last_write_wins :
    (∀ (α : Type) (st s : α), cacheStep st (CacheOp.setOp s) = (s, none)) ∧
    (∀ (α : Type) (st : α), cacheStep st CacheOp.getOp = (st, some st)) ∧
    (∀ (α : Type) (d : α) (ops : List (CacheOp α)),
       (cacheRun d ops).1 = lastSetVal d ops) ∧
    (∀ (α : Type) (d A B : α) (pre : List (CacheOp α)) (n : Nat),
       cacheRun d (pre ++ CacheOp.setOp A :: CacheOp.setOp B ::
           List.replicate n CacheOp.getOp) =
         (B, (cacheRun d pre).2 ++ List.replicate n B)) ∧
    (∀ (α : Type) (d : α) (n : Nat),
       cacheRun d (List.replicate n CacheOp.getOp) = (d, List.replicate n d)) := by
  refine ⟨fun α st s => rfl, fun α st => rfl, fun α d ops => cacheRun_fst d ops, ?_,
         fun α d n => cacheRun_gets d n⟩
  intro α d A B pre n
  rw [cacheRun_append]
  simp [cacheRun, cacheStep, consOpt, cacheRun_gets]

theorem except_ok_bind {ε α β : Type} (a : α) (f : α → Except ε β) :
    (Except.ok a >>= f) = f a := rfl

theorem except_error_bind {ε α β : Type} (e : ε) (f : α → Except ε β) :
    ((Except.error e : Except ε α) >>= f) = Except.error e := rfl

/-- Counterexample to C6 as stated: over three ticks whose second holds
one malformed network record (all other domains well-formed), the
collection loop publishes only the first tick's snapshot and dies with
the parse failure — the second tick's snapshot, including the CPU metrics
that its sampler alone would have produced (third conjunct), never
appears, and the third tick never runs. -/
theorem claim_C6_counterexample :
    (runLoop emptyHistories (some "host")
       [(0, zeroMenInfo, tickOkInput), (3, zeroMenInfo, tickBadNetInput),
        (6, zeroMenInfo, tickOkInput)]).1.length = 1 ∧
    (runLoop emptyHistories (some "host")
       [(0, zeroMenInfo, tickOkInput), (3, zeroMenInfo, tickBadNetInput),
        (6, zeroMenInfo, tickOkInput)]).2 = some CxxErr.badNum ∧
    Except.map (fun r => r.2.length)
      (cpuUpdateOnce [("cpu", cpuStatOne)] tickBadNetInput.statLines) = .ok 1 := by
  exact ⟨by decide, by decide, by decide⟩

/-- Claim C6 as amended: the collection loop installs no handler, so the
domains are not independent — a tick produces a snapshot exactly when all
five samplers succeed, a successful snapshot carries every domain's
contribution, and the first sampler failure aborts the tick (nothing is
published for it), terminates the loop, and prevents every later tick. -/
theorem claim_C6_failure_propagation :
    (∀ (hists : Histories) (hostName : Option String) (now : Rat)
       (memInit : MenInfo) (inp : TickInput),
       (∃ r, collectTick hists hostName now memInit inp = .ok r) ↔
       ((∃ a, softIrqUpdateOnce hists.softirqHist now inp.softirqRows = .ok a) ∧
        (∃ b, loadUpdateOnce inp.loadToks = .ok b) ∧
        (∃ c, cpuUpdateOnce hists.cpuStatHist inp.statLines = .ok c) ∧
        (∃ d, memUpdateOnce memInit inp.memLines = .ok d) ∧
        (∃ e, netUpdateOnce hists.netHist now inp.netLines = .ok e))) ∧
    (∀ (hists : Histories) (hostName : Option String) (now : Rat)
       (memInit : MenInfo) (inp : TickInput) (r : Histories × Snapshot),
       collectTick hists hostName now memInit inp = .ok r →
       ∃ sres lres cres mres nres,
         softIrqUpdateOnce hists.softirqHist now inp.softirqRows = .ok sres ∧
         loadUpdateOnce inp.loadToks = .ok lres ∧
         cpuUpdateOnce hists.cpuStatHist inp.statLines = .ok cres ∧
         memUpdateOnce memInit inp.memLines = .ok mres ∧
         netUpdateOnce hists.netHist now inp.netLines = .ok nres ∧
         r.2 = { name := hostName.getD "unknown_host", soft_irqs := sres.2,
                 cpu_load := some lres, cpu_stats := cres.2,
                 mem_info := some mres, net_infos := nres.2 } ∧
         r.1 = { softirqHist := sres.1, cpuStatHist := cres.1, netHist := nres.1 }) ∧
    (∀ (hists : Histories) (hostName : Option String) (now : Rat)
       (memInit : MenInfo) (inp : TickInput)
       (rest : List (Rat × MenInfo × TickInput)) (e : CxxErr),
       collectTick hists hostName now memInit inp = .error e →
       runLoop hists hostName ((now, memInit, inp) :: rest) = ([], some e)) := by
  refine ⟨?_, ?_, ?_⟩
  · intro hists hostName now memInit inp
    constructor
    · rintro ⟨r, hr⟩
      unfold collectTick at hr
      simp only [except_bind_eq_ok, except_pure_def] at hr
      obtain ⟨a, ha, b, hb, c, hc, dd, hd, ee, he, _⟩ := hr
      exact ⟨⟨a, ha⟩, ⟨b, hb⟩, ⟨c, hc⟩, ⟨dd, hd⟩, ⟨ee, he⟩⟩
    · rintro ⟨⟨a, ha⟩, ⟨b, hb⟩, ⟨c, hc⟩, ⟨dd, hd⟩, ⟨ee, he⟩⟩
      refine ⟨({ softirqHist := a.1, cpuStatHist := c.1, netHist := ee.1 },
              { name := hostName.getD "unknown_host", soft_irqs := a.2,
                cpu_load := some b, cpu_stats := c.2, mem_info := some dd,
                net_infos := ee.2 }), ?_⟩
      unfold collectTick
      simp only [ha, hb, hc, hd, he, except_ok_bind, except_pure_def]
  · intro hists hostName now memInit inp r hr
    unfold collectTick at hr
    simp only [except_bind_eq_ok, except_pure_def] at hr
    obtain ⟨a, ha, b, hb, c, hc, dd, hd, ee, he, hfin⟩ := hr
    have hfin' := Except.ok.inj hfin
    exact ⟨a, b, c, dd, ee, ha, hb, hc, hd, he,
      (congrArg Prod.snd hfin').symm, (congrArg Prod.fst hfin').symm⟩
  · intro hists hostName now memInit inp rest e he
    simp [runLoop, he]

/-- Witness for the amended C6: the concrete good tick succeeds with every
domain present; the concrete bad tick fails and kills the rest of the
loop. -/
theorem claim_C6_failure_propagation_witness :
    (∃ r, collectTick emptyHistories (some "host") 0 zeroMenInfo tickOkInput = .ok r) ∧
    (collectTick emptyHistories (some "host") 0 zeroMenInfo tickOkInput = .ok c6OkRes ∧
     (∃ sres lres cres mres nres,
        softIrqUpdateOnce emptyHistories.softirqHist 0 tickOkInput.softirqRows = .ok sres ∧
        loadUpdateOnce tickOkInput.loadToks = .ok lres ∧
        cpuUpdateOnce emptyHistories.cpuStatHist tickOkInput.statLines = .ok cres ∧
        memUpdateOnce zeroMenInfo tickOkInput.memLines = .ok mres ∧
        netUpdateOnce emptyHistories.netHist 0 tickOkInput.netLines = .ok nres ∧
        c6OkRes.2 = { name := (some "host").getD "unknown_host", soft_irqs := sres.2,
                      cpu_load := some lres, cpu_stats := cres.2,
                      mem_info := some mres, net_infos := nres.2 } ∧
        c6OkRes.1 = { softirqHist := sres.1, cpuStatHist := cres.1,
                      netHist := nres.1 })) ∧
    (collectTick emptyHistories (some "host") 3 zeroMenInfo tickBadNetInput =
       .error CxxErr.badNum ∧
     runLoop emptyHistories (some "host")
       [(3, zeroMenInfo, tickBadNetInput), (6, zeroMenInfo, tickOkInput)] =
       ([], some CxxErr.badNum)) := by
  refine ⟨?_, ⟨by decide, ?_⟩, ⟨by decide, ?_⟩⟩
  · exact (claim_C6_failure_propagation.1 emptyHistories (some "host") 0 zeroMenInfo
      tickOkInput).mpr
      ⟨⟨([], []), by decide⟩, ⟨c6LoadMsg, by decide⟩,
       ⟨([("cpu", cpuStatOne)], []), by decide⟩, ⟨memBuildMsg c9Mem, by decide⟩,
       ⟨([], []), by decide⟩⟩
  · exact claim_C6_failure_propagation.2.1 emptyHistories (some "host") 0 zeroMenInfo
      tickOkInput c6OkRes (by decide)
  · exact claim_C6_failure_propagation.2.2 emptyHistories (some "host") 3 zeroMenInfo
      tickBadNetInput [(6, zeroMenInfo, tickOkInput)] CxxErr.badNum (by decide)

/-- Claim C7 is a code bug: the column loop bound `softirq[0].size() - 1`
assumes the header row starts with an interrupt-type-name column, but the
header row holds only the CPU names, so the last CPU column of the source
is never sampled.  On a two-CPU source the header lists `CPU1`, yet the
call samples only `CPU0`: no entity, history entry or message for `CPU1`
is ever built. -/
theorem claim_C7_last_cpu_column_skipped :
    "CPU1" ∈ softirqTwoCpuRows.headD [] ∧
    softIrqUpdateOnce [] 0 softirqTwoCpuRows = .ok ([("CPU0", softTwoCpuInfo)], []) ∧
    histFind [("CPU0", softTwoCpuInfo)] "CPU1" = none := by
  exact ⟨by decide, by decide, by decide⟩

theorem charFindPos_get {c : Char} :
    ∀ {l : List Char} {i : Nat}, charFindPos c l = some i → l[i]? = some c := by
  intro l
  induction l with
  | nil => intro i h; cases h
  | cons x xs ih =>
    intro i h
    unfold charFindPos at h
    by_cases hx : x = c
    · rw [if_pos hx] at h
      cases Option.some.inj h
      simpa using hx
    · rw [if_neg hx] at h
      rcases hj : charFindPos c xs with _ | j
      · rw [hj] at h; cases h
      · rw [hj] at h
        have := Option.some.inj h
        subst this
        simpa using ih hj

theorem sizetDec_of_pos {n : Nat} (h1 : 1 ≤ n) (h2 : n < 2 ^ 64) :
    sizetDec n = n - 1 := by
  unfold sizetDec sizetMax
  omega

theorem netParseLine_ok_name {now : Rat} {toks : List String} {cur : NetInfo}
    (h : netParseLine now toks = .ok (some cur)) :
    ∃ name0, vecGet toks 0 = .ok name0 ∧ strPopBack name0 = .ok cur.name := by
  unfold netParseLine at h
  simp only [except_bind_eq_ok] at h
  obtain ⟨name0, h0, h⟩ := h
  split at h
  · simp only [except_bind_eq_ok, except_pure_def] at h
    obtain ⟨nm, h1, rb, h2, rp, h3, ei, h4, di, h5, sb, h6, sp, h7, eo, h8, dr, h9, hfin⟩ := h
    have : some (⟨nm, rb, rp, ei, di, sb, sp, eo, dr, now⟩ : NetInfo) = some cur :=
      Except.ok.inj hfin
    cases Option.some.inj this
    exact ⟨name0, h0, h1⟩
  · simp only [except_pure_def] at h
    exact absurd (Except.ok.inj h) (by simp)

/-- Counterexample to C8 as stated: a record whose first token ends with
`':'` and that has at least 10 fields, which the specification's filter
accepts, is rejected by the code (its first `':'` is not at the last
position), so it contributes nothing to the snapshot or the history. -/
theorem claim_C8_counterexample :
    specNetLineIsInterface netColonTwiceLine = true ∧
    netLineIsInterface netColonTwiceLine = false ∧
    netProcessLine [] 0 netColonTwiceLine = .ok ([], none) := by
  exact ⟨by decide, by decide, by decide⟩

/-- Claim C8 as amended: a record is treated as an interface exactly when
the FIRST occurrence of `':'` in its first token sits at position
`size() - 1` (so the token ends with `':'` and holds no earlier `':'`;
the comparison is in `size_t`, which an empty token also satisfies by
wraparound) and the record has at least 10 fields; rejected records leave
history and snapshot untouched, and parsed records have the trailing
`':'` stripped from the first token to form the interface name. -/
theorem claim_C8_interface_filter :
    (∀ (hist : List (String × NetInfo)) (now : Rat) (toks : List String),
       toks ≠ [] →
       netLineIsInterface toks = false →
       netProcessLine hist now toks = .ok (hist, none)) ∧
    (∀ (now : Rat) (toks : List String) (cur : NetInfo),
       (toks.headD "").data.length < 2 ^ 64 →
       netParseLine now toks = .ok (some cur) →
       netLineIsInterface toks = true ∧ cur.name.push ':' = toks.headD "") ∧
    (∀ (now : Rat) (toks : List String),
       netLineIsInterface toks = true →
       toks ≠ [] →
       netParseLine now toks ≠ .ok none) := by
  refine ⟨?_, ?_, ?_⟩
  · intro hist now toks hne hguard
    obtain ⟨t, ts, rfl⟩ : ∃ t ts, toks = t :: ts := by
      cases toks with
      | nil => exact absurd rfl hne
      | cons t ts => exact ⟨t, ts, rfl⟩
    unfold netProcessLine netParseLine
    simp [vecGet, except_ok_bind, hguard, except_pure_def]
  · intro now toks cur hlen h
    have hguard := (netParseLine_ok_some h).2
    obtain ⟨name0, h0, hpop⟩ := netParseLine_ok_name h
    have hhd : toks.headD "" = name0 := vecGet_zero_headD "" h0
    refine ⟨hguard, ?_⟩
    unfold strPopBack at hpop
    by_cases hempty : name0.data.isEmpty
    · rw [if_pos hempty] at hpop; cases hpop
    · rw [if_neg hempty] at hpop
      have hname : cur.name = ⟨name0.data.dropLast⟩ := (Except.ok.inj hpop).symm
      have hnonempty : name0.data ≠ [] := by
        intro hx; rw [hx] at hempty; exact hempty rfl
      have h1 : 1 ≤ name0.data.length := by
        cases hd : name0.data with
        | nil => exact absurd hd hnonempty
        | cons a as => simp [hd]
      rw [hhd] at hlen
      unfold netLineIsInterface at hguard
      rw [hhd] at hguard
      have hfind : cxxFindChar name0 ':' = name0.data.length - 1 := by
        have := (Bool.and_eq_true _ _).mp hguard
        have heq : cxxFindChar name0 ':' = sizetDec name0.data.length :=
          eq_of_beq this.1
        rw [heq, sizetDec_of_pos h1 hlen]
      have hlast : name0.data[name0.data.length - 1]? = some ':' := by
        unfold cxxFindChar at hfind
        rcases hp : charFindPos ':' name0.data with _ | i
        · rw [hp] at hfind
          dsimp only at hfind
          unfold sizetMax at hfind
          omega
        · rw [hp] at hfind
          dsimp only at hfind
          subst hfind
          exact charFindPos_get hp
      have hsplit : name0.data.dropLast ++ [':'] = name0.data := by
        have hgl : name0.data.getLast hnonempty = ':' := by
          have h2 := List.getLast?_eq_getElem? name0.data
          rw [List.getLast?_eq_getLast name0.data hnonempty] at h2
          rw [hlast] at h2
          exact Option.some.inj h2
        rw [← hgl]
        exact List.dropLast_append_getLast hnonempty
      rw [hhd, hname]
      show String.mk (name0.data.dropLast ++ [':']) = name0
      rw [hsplit]
  · intro now toks hguard hne h
    obtain ⟨t, ts, rfl⟩ : ∃ t ts, toks = t :: ts := by
      cases toks with
      | nil => exact absurd rfl hne
      | cons t ts => exact ⟨t, ts, rfl⟩
    unfold netParseLine at h
    simp only [except_bind_eq_ok] at h
    obtain ⟨name0, h0, h⟩ := h
    rw [if_pos hguard] at h
    simp only [except_bind_eq_ok, except_pure_def] at h
    obtain ⟨nm, h1, rb, h2, rp, h3, ei, h4, di, h5, sb, h6, sp, h7, eo, h8, dr, h9, hfin⟩ := h
    cases Except.ok.inj hfin

/-- Witness for the amended C8: a rejected short record leaves everything
untouched; the accepted sample line parses with the trailing `':'`
stripped. -/
theorem claim_C8_interface_filter_witness :
    (netLineIsInterface ["lo"] = false ∧
     netProcessLine [] 0 ["lo"] = .ok ([], none)) ∧
    (netSampleLine.headD "").data.length < 2 ^ 64 ∧
    (netParseLine 0 netSampleLine = .ok (some netSampleInfo) ∧
     netLineIsInterface netSampleLine = true ∧
     netSampleInfo.name.push ':' = netSampleLine.headD "") ∧
    (netLineIsInterface netSampleLine = true ∧ netParseLine 0 netSampleLine ≠ .ok none) := by
  refine ⟨⟨by decide, ?_⟩, by decide, ⟨by decide, ?_, ?_⟩, by decide, ?_⟩
  · exact claim_C8_interface_filter.1 [] 0 ["lo"] (by decide) (by decide)
  · exact (claim_C8_interface_filter.2.1 0 netSampleLine netSampleInfo (by decide)
      (by decide)).1
  · exact (claim_C8_interface_filter.2.1 0 netSampleLine netSampleInfo (by decide)
      (by decide)).2
  · exact claim_C8_interface_filter.2.2 0 netSampleLine (by decide) (by decide)
